import Mathlib

/-!
# Verification of the task scheduler (package `scheduler`, `worker/scheduler/scheduler.go`)

Shallow embedding of the Go code.

* `time.Time` is an integer number of nanoseconds (`Time`); `Time.Add` is integer addition and
  `Time.After` is the strict order. The range of `time.Time` is far larger than the range of a
  `time.Duration`, so instants are not wrapped.
* `time.Duration` and `int` are 64-bit signed integers: results of `*` and `++` are wrapped with
  `wrap64`.
* `map[string]*Task` is an association list; the iteration order of `range` is the list order, so
  a statement proved for every list is proved for every iteration order. Go maps have unique keys
  (`KeysNodup`).
* `RunFunc func() error` is a closure with side effects: it is a function on an abstract world `W`
  returning its error (`none` for `nil`) and the new world. The error observer is modelled the same
  way. Callbacks do not touch the registry (they would deadlock on the mutex).
* Calling a nil `RunFunc` panics: `handleDue` returns `none`.
* `handleDue` additionally records which `RunFunc`s it called, with their results (`invoked`), and
  the calls of the error observer (`observed`).
-/

namespace scheduler

/-- An instant (`time.Time`), in nanoseconds. -/
abbrev Time := Int

/-- A `time.Duration`: a signed 64-bit count of nanoseconds. -/
abbrev Duration := Int

/-- The constant `time.Second`. -/
def Second : Duration := 1000000000

/-- The constant `time.Millisecond`. -/
def Millisecond : Duration := 1000000

/-- Two's complement wrap-around of a signed 64-bit integer operation. -/
def wrap64 (x : Int) : Int := (x + 2 ^ 63) % 2 ^ 64 - 2 ^ 63

/-- The statuses of a task (`TaskStatus`). -/
inductive TaskStatus where
  | StatusPending
  | StatusRunning
  | StatusDone
  | StatusFailed
  deriving DecidableEq, Repr

open TaskStatus

/-- A Go `func() error` closure acting on the world `W`. -/
abbrev RunFn (W : Type) := W → Option String × W

/-- The struct `Task`. A nil `RunFunc` is `none`. -/
structure Task (W : Type) where
  ID : String
  Name : String
  Interval : Duration
  NextRun : Time
  LastRun : Time
  RetryCount : Int
  MaxRetries : Int
  Status : TaskStatus
  BackoffBase : Duration
  RunFunc : Option (RunFn W)

/-- The error observer `func(task *Task, err error)`. -/
abbrev ErrFn (W : Type) := Task W → String → W → W

/-- The struct `Scheduler`: the registry and the optional error observer (the fields `mu`,
`running` and `done` are never read). -/
structure Scheduler (W : Type) where
  tasks : List (String × Task W)
  onError : Option (ErrFn W)

/-- The constructor `New()`: an empty registry, no observer. -/
def New (W : Type) : Scheduler W := ⟨[], none⟩

/-- The method `SetErrorHandler`: sets (or clears) the error observer. -/
def SetErrorHandler {W : Type} (s : Scheduler W) (handler : Option (ErrFn W)) : Scheduler W :=
  { s with onError := handler }

/-- Map read `m[id]`: the entry stored under `id`, if any. -/
def getEntry {W : Type} : List (String × Task W) → String → Option (Task W)
  | [], _ => none
  | (k, v) :: rest, id => if k = id then some v else getEntry rest id

/-- Map write `m[id] = t`: replaces the entry under `id` or adds a new one. -/
def setEntry {W : Type} : List (String × Task W) → String → Task W → List (String × Task W)
  | [], id, t => [(id, t)]
  | (k, v) :: rest, id, t => if k = id then (id, t) :: rest else (k, v) :: setEntry rest id t

/-- Map `delete(m, id)`. -/
def deleteEntry {W : Type} : List (String × Task W) → String → List (String × Task W)
  | [], _ => []
  | (k, v) :: rest, id => if k = id then deleteEntry rest id else (k, v) :: deleteEntry rest id

/-- What `Add` leaves behind: the returned error, the scheduler, and the task object the caller
passed by pointer. -/
structure AddResult (W : Type) where
  err : Option String
  sched : Scheduler W
  task : Task W

/-- The method `Scheduler.Add`, performed at instant `now` (`time.Now()`). -/
def Add {W : Type} (s : Scheduler W) (task : Task W) (now : Time) : AddResult W :=
  if task.ID = "" then
    ⟨some "task ID cannot be empty", s, task⟩
  else if task.RunFunc.isNone then
    ⟨some "task RunFunc cannot be nil", s, task⟩
  else
    let task1 := if task.MaxRetries = 0 then { task with MaxRetries := 3 } else task
    let task2 := if task1.BackoffBase = 0 then { task1 with BackoffBase := Second } else task1
    let task3 := { task2 with Status := StatusPending }
    let task4 := { task3 with NextRun := now + task3.Interval }
    ⟨none, { s with tasks := setEntry s.tasks task4.ID task4 }, task4⟩

/-- The method `Scheduler.Remove`: whether the id existed, and the scheduler afterwards. -/
def Remove {W : Type} (s : Scheduler W) (id : String) : Bool × Scheduler W :=
  let exists_ := (getEntry s.tasks id).isSome
  if exists_ then (exists_, { s with tasks := deleteEntry s.tasks id }) else (exists_, s)

/-- The method `Scheduler.GetTask`: `some t` for `(t, true)`, `none` for `(nil, false)`. -/
def GetTask {W : Type} (s : Scheduler W) (id : String) : Option (Task W) :=
  getEntry s.tasks id

/-- The method `Scheduler.TaskCount`: the number of entries of the map. -/
def TaskCount {W : Type} (s : Scheduler W) : Nat := s.tasks.length

/-- The method `Scheduler.PendingCount`: the loop counting the Pending and the Failed entries. -/
def PendingCount {W : Type} (s : Scheduler W) : Nat :=
  s.tasks.foldl
    (fun count e =>
      if e.2.Status = StatusPending ∨ e.2.Status = StatusFailed then count + 1 else count) 0

/-- The conversion `time.Duration(math.Pow(2, float64(n)))`. For `0 ≤ n ≤ 62` the power is exact
and fits; for `n < 0` it is a fraction below one, truncated to zero; for `n ≥ 63` the value does
not fit a 64-bit integer and Go leaves the result to the implementation: `cv n`. -/
def pow2Duration (cv : Int → Int) (n : Int) : Int :=
  if n < 0 then 0 else if n ≤ 62 then 2 ^ n.toNat else cv n

/-- The expression `task.BackoffBase * time.Duration(math.Pow(2, float64(task.RetryCount)))`. -/
def backoff (cv : Int → Int) (base : Duration) (retryCount : Int) : Duration :=
  wrap64 (base * pow2Duration cv retryCount)

/-- The method `now.After(t)`. -/
def After (now t : Time) : Bool := decide (t < now)

/-- The three `continue` tests at the head of the loop body of `handleDue`: whether the task is
skipped in this pass. -/
def shouldSkip {W : Type} (cv : Int → Int) (now : Time) (task : Task W) : Bool :=
  if task.Status = StatusRunning then true
  else if (!After now task.NextRun) && decide (task.Status ≠ StatusFailed) then true
  else if task.Status = StatusFailed then
    if task.RetryCount ≥ task.MaxRetries then true
    else
      let backoff := backoff cv task.BackoffBase task.RetryCount
      let retryAt := task.LastRun + backoff
      if !After now retryAt then true else false
  else false

/-- The assignments before the call: `task.Status = StatusRunning; task.LastRun = now`. -/
def markRunning {W : Type} (now : Time) (task : Task W) : Task W :=
  { task with Status := StatusRunning, LastRun := now }

/-- The assignments after the call of `RunFunc`, by its result `err`. -/
def settle {W : Type} (cv : Int → Int) (now : Time) (task : Task W) (err : Option String) : Task W :=
  match err with
  | some _ =>
    let task1 := { task with Status := StatusFailed }
    let task2 := { task1 with RetryCount := wrap64 (task1.RetryCount + 1) }
    let backoff := backoff cv task2.BackoffBase task2.RetryCount
    { task2 with NextRun := now + backoff }
  | none =>
    let task1 := { task with Status := StatusDone }
    let task2 := { task1 with RetryCount := 0 }
    { task2 with NextRun := now + task2.Interval }

/-- The guarded call `if s.onError != nil { s.onError(task, err) }` inside `if err != nil`: the
world afterwards. -/
def callOnError {W : Type} (onError : Option (ErrFn W)) (task : Task W) (err : Option String)
    (w : W) : W :=
  match err, onError with
  | some e, some h => h task e w
  | _, _ => w

/-- The calls of the error observer made by the guarded call, as a record. -/
def onErrorCalls {W : Type} (onError : Option (ErrFn W)) (task : Task W) (err : Option String) :
    List (Task W × String) :=
  match err, onError with
  | some e, some _ => [(task, e)]
  | _, _ => []

/-- State of the loop of `handleDue` after the entries visited so far. -/
structure LoopOut (W : Type) where
  tasks : List (String × Task W)
  world : W
  executed : List String
  invoked : List (String × Option String)
  observed : List (Task W × String)

/-- The loop `for id, task := range s.tasks` of `handleDue`, over the entries still to visit.
`none` when a nil `RunFunc` is called. -/
def handleDueLoop {W : Type} (cv : Int → Int) (onError : Option (ErrFn W)) (now : Time) :
    List (String × Task W) → W → Option (LoopOut W)
  | [], w => some ⟨[], w, [], [], []⟩
  | (id, task) :: rest, w =>
    if shouldSkip cv now task then
      (handleDueLoop cv onError now rest w).map fun o =>
        { o with tasks := (id, task) :: o.tasks }
    else
      match task.RunFunc with
      | none => none
      | some f =>
        let task1 := markRunning now task
        let res := f w
        let task2 := settle cv now task1 res.1
        (handleDueLoop cv onError now rest (callOnError onError task2 res.1 res.2)).map fun o =>
          { tasks := (id, task2) :: o.tasks
            world := o.world
            executed := id :: o.executed
            invoked := (id, res.1) :: o.invoked
            observed := onErrorCalls onError task2 res.1 ++ o.observed }

/-- What a pass of `handleDue` leaves behind: the returned list, the scheduler, the world, and the
record of the callbacks it called. -/
structure TickResult (W : Type) where
  executed : List String
  sched : Scheduler W
  world : W
  invoked : List (String × Option String)
  observed : List (Task W × String)

/-- The method `Scheduler.handleDue(now)`: the loop over the registry, started in world `w`. -/
def handleDue {W : Type} (cv : Int → Int) (s : Scheduler W) (now : Time) (w : W) :
    Option (TickResult W) :=
  match handleDueLoop cv s.onError now s.tasks w with
  | none => none
  | some o => some ⟨o.executed, { s with tasks := o.tasks }, o.world, o.invoked, o.observed⟩

/-- The method `Scheduler.Tick()`, at the instant `now` read from the clock. -/
def Tick {W : Type} (cv : Int → Int) (s : Scheduler W) (now : Time) (w : W) :
    Option (TickResult W) :=
  handleDue cv s now w

/-- Go maps have unique keys. -/
def KeysNodup {W : Type} (s : Scheduler W) : Prop := (s.tasks.map Prod.fst).Nodup

/-- Every registered task has a non-nil `RunFunc` (what `Add` checks). -/
def RunFuncsSet {W : Type} (s : Scheduler W) : Prop :=
  ∀ e ∈ s.tasks, e.2.RunFunc.isSome = true

instance instDecidableKeysNodup {W : Type} (s : Scheduler W) : Decidable (KeysNodup s) :=
  inferInstanceAs (Decidable (s.tasks.map Prod.fst).Nodup)

instance instDecidableRunFuncsSet {W : Type} (s : Scheduler W) : Decidable (RunFuncsSet s) :=
  inferInstanceAs (Decidable (∀ e ∈ s.tasks, e.2.RunFunc.isSome = true))

/-! ## Concrete closures, tasks and schedulers used in the examples

The world of the examples is a counter of calls, like the variable `attempts` captured by the
closure of `TestRetryOnFailure`. -/

/-- The out-of-range conversion as amd64 does it: the smallest 64-bit integer. -/
def cvAmd64 : Int → Int := fun _ => -2 ^ 63

/-- The closure `func() error { return nil }`, counting its calls. -/
def alwaysOk : RunFn Nat := fun n => (none, n + 1)

/-- The closure `func() error { return fmt.Errorf("task error") }`, counting its calls. -/
def alwaysFail : RunFn Nat := fun n => (some "task error", n + 1)

/-- The closure of `TestRetryOnFailure`: `attempts++`, an error while `attempts < 3`. -/
def failTwice : RunFn Nat := fun n => (if n + 1 < 3 then some "fail attempt" else none, n + 1)

/-- A pending task with `NextRun = 100`, default retry policy, succeeding. -/
def pendingAt100 : Task Nat :=
  { ID := "t1", Name := "due", Interval := 0, NextRun := 100, LastRun := 0, RetryCount := 0,
    MaxRetries := 3, Status := StatusPending, BackoffBase := Second, RunFunc := some alwaysOk }

/-- A registry holding only `pendingAt100`. -/
def schedPendingAt100 : Scheduler Nat := ⟨[("t1", pendingAt100)], none⟩

/-- A failed task after 34 consecutive failures with the default one-second base, last run at
instant 0, a hundred retries allowed. -/
def failedAfter34 : Task Nat :=
  { ID := "f1", Name := "late", Interval := 0, NextRun := 0, LastRun := 0, RetryCount := 34,
    MaxRetries := 100, Status := StatusFailed, BackoffBase := Second, RunFunc := some alwaysOk }

/-- A registry holding only `failedAfter34`. -/
def schedFailedAfter34 : Scheduler Nat := ⟨[("f1", failedAfter34)], none⟩

/-- A failed task after one failure at instant 1000, base one millisecond. -/
def failedOnce : Task Nat :=
  { ID := "f2", Name := "retry", Interval := 60 * Second, NextRun := 7, LastRun := 1000,
    RetryCount := 1, MaxRetries := 3, Status := StatusFailed, BackoffBase := Millisecond,
    RunFunc := some alwaysOk }

/-- A registry holding only `failedOnce`. -/
def schedFailedOnce : Scheduler Nat := ⟨[("f2", failedOnce)], none⟩

/-- A failed task with a negative base of `-2^62` nanoseconds and two failures, last run at
instant 0. -/
def failedNegativeBase : Task Nat :=
  { ID := "f3", Name := "negative", Interval := 0, NextRun := 0, LastRun := 0, RetryCount := 2,
    MaxRetries := 3, Status := StatusFailed, BackoffBase := -4611686018427387904,
    RunFunc := some alwaysOk }

/-- A registry holding only `failedNegativeBase`. -/
def schedFailedNegativeBase : Scheduler Nat := ⟨[("f3", failedNegativeBase)], none⟩

/-- A pending task that already counts 33 failures, default one-second base, due after instant
10, always failing. -/
def pendingAfter33 : Task Nat :=
  { ID := "p1", Name := "flaky", Interval := 0, NextRun := 10, LastRun := 0, RetryCount := 33,
    MaxRetries := 100, Status := StatusPending, BackoffBase := Second, RunFunc := some alwaysFail }

/-- A registry holding only `pendingAfter33`. -/
def schedPendingAfter33 : Scheduler Nat := ⟨[("p1", pendingAfter33)], none⟩

/-- A pending task due after instant 10, always failing, base one millisecond. -/
def pendingFailing : Task Nat :=
  { ID := "p2", Name := "flaky", Interval := 0, NextRun := 10, LastRun := 0, RetryCount := 0,
    MaxRetries := 3, Status := StatusPending, BackoffBase := Millisecond,
    RunFunc := some alwaysFail }

/-- A registry holding `pendingFailing` and the succeeding `pendingAt100`. -/
def schedPendingFailing : Scheduler Nat := ⟨[("p2", pendingFailing), ("t1", pendingAt100)], none⟩

/-- A failed task with two failures whose backoff has elapsed at instant 5000, succeeding, run
every minute. -/
def failedTwiceOk : Task Nat :=
  { ID := "s1", Name := "recovers", Interval := 60 * Second, NextRun := 0, LastRun := 0,
    RetryCount := 2, MaxRetries := 3, Status := StatusFailed, BackoffBase := 1000,
    RunFunc := some alwaysOk }

/-- A registry holding only `failedTwiceOk`. -/
def schedFailedTwiceOk : Scheduler Nat := ⟨[("s1", failedTwiceOk)], none⟩

/-- What a sequence of ticks leaves behind: the scheduler, the world, and the calls of `RunFunc`
recorded over all the passes, in order. -/
structure TicksResult (W : Type) where
  sched : Scheduler W
  world : W
  invoked : List (String × Option String)

/-- A driver calling `Tick` once per instant of the list, in order, as `TestRetryOnFailure` does
with its three calls of `s.Tick()`. -/
def runTicks {W : Type} (cv : Int → Int) : Scheduler W → List Time → W → Option (TicksResult W)
  | s, [], w => some ⟨s, w, []⟩
  | s, now :: rest, w =>
    match Tick cv s now w with
    | none => none
    | some r =>
      match runTicks cv r.sched rest r.world with
      | none => none
      | some fin => some ⟨fin.sched, fin.world, r.invoked ++ fin.invoked⟩

/-- A failed task with `MaxRetries = 1` that has failed once, at instant 11, always failing. -/
def exhaustedTask : Task Nat :=
  { ID := "x1", Name := "gives up", Interval := 0, NextRun := 2000011, LastRun := 11,
    RetryCount := 1, MaxRetries := 1, Status := StatusFailed, BackoffBase := Millisecond,
    RunFunc := some alwaysFail }

/-- The same task before its first run: pending, `RetryCount = 0`, due after instant 10. -/
def givesUpTask : Task Nat :=
  { ID := "x1", Name := "gives up", Interval := 0, NextRun := 10, LastRun := 0,
    RetryCount := 0, MaxRetries := 1, Status := StatusPending, BackoffBase := Millisecond,
    RunFunc := some alwaysFail }

/-- A registry holding `givesUpTask` and the succeeding `pendingAt100`. -/
def schedGivesUp : Scheduler Nat := ⟨[("x1", givesUpTask), ("t1", pendingAt100)], none⟩

/-- A registry holding `exhaustedTask` and the succeeding `pendingAt100`. -/
def schedExhausted : Scheduler Nat := ⟨[("x1", exhaustedTask), ("t1", pendingAt100)], none⟩

/-- The task of the retry scenario as `Add` registers it: `Interval = 0`, `MaxRetries = 3`, a base
of one millisecond, failing twice and then succeeding; its `NextRun` is instant 0. -/
def scenarioTask : Task Nat :=
  { ID := "fail1", Name := "scenario", Interval := 0, NextRun := 0, LastRun := 0,
    RetryCount := 0, MaxRetries := 3, Status := StatusPending, BackoffBase := Millisecond,
    RunFunc := some failTwice }

/-- A registry holding only `scenarioTask`. -/
def schedScenario : Scheduler Nat := ⟨[("fail1", scenarioTask)], none⟩

/-- A task as a caller builds it, with an empty id. -/
def taskNoID : Task Nat :=
  { ID := "", Name := "anonymous", Interval := 5, NextRun := 1, LastRun := 2, RetryCount := 0,
    MaxRetries := 0, Status := StatusDone, BackoffBase := 0, RunFunc := some alwaysOk }

/-- A task as a caller builds it, with status Done and a `NextRun` of its own, retry policy
left unset. -/
def taskGetter : Task Nat :=
  { ID := "g1", Name := "getter", Interval := 60 * Second, NextRun := 1, LastRun := 0,
    RetryCount := 0, MaxRetries := 0, Status := StatusDone, BackoffBase := 0,
    RunFunc := some alwaysOk }

/-- A task as a caller builds it, with a negative `MaxRetries` and a negative `BackoffBase`. -/
def taskNegativePolicy : Task Nat :=
  { ID := "n1", Name := "negative policy", Interval := 0, NextRun := 0, LastRun := 0,
    RetryCount := 0, MaxRetries := -1, Status := StatusPending, BackoffBase := -5,
    RunFunc := some alwaysOk }

/-- A task that is Running when the pass starts, with a `NextRun` long past. -/
def runningTask : Task Nat :=
  { ID := "r1", Name := "in progress", Interval := 0, NextRun := 0, LastRun := 50,
    RetryCount := 0, MaxRetries := 3, Status := StatusRunning, BackoffBase := Second,
    RunFunc := some alwaysOk }

/-- A task that is Done and scheduled for instant 900. -/
def doneLater : Task Nat :=
  { ID := "d1", Name := "settled", Interval := 800, NextRun := 900, LastRun := 100,
    RetryCount := 0, MaxRetries := 3, Status := StatusDone, BackoffBase := Second,
    RunFunc := some alwaysOk }

/-- An error observer counting its calls in the hundreds of the world counter. -/
def countingObserver : ErrFn Nat := fun _ _ n => n + 100

/-- A registry of five tasks with an error observer: a running one, a failing one due after 10,
a succeeding one due after 100, one Done until 900 and one Failed with its retries exhausted. -/
def schedMixed : Scheduler Nat :=
  ⟨[("r1", runningTask), ("p2", pendingFailing), ("t1", pendingAt100), ("d1", doneLater),
    ("x1", exhaustedTask)], some countingObserver⟩

/-- A task as a caller builds it to replace the entry `t1`. -/
def taskReplacement : Task Nat :=
  { ID := "t1", Name := "replacement", Interval := 30, NextRun := 0, LastRun := 0,
    RetryCount := 0, MaxRetries := 5, Status := StatusDone, BackoffBase := Millisecond,
    RunFunc := some alwaysFail }

/-- The states of a scheduler that `New`, `SetErrorHandler`, `Add`, `Remove` and `Tick` can
produce, every `RunFunc` returning. -/
inductive Reachable {W : Type} (cv : Int → Int) : Scheduler W → Prop where
  | new : Reachable cv (New W)
  | setErrorHandler {s : Scheduler W} (handler : Option (ErrFn W)) :
      Reachable cv s → Reachable cv (SetErrorHandler s handler)
  | add {s : Scheduler W} (task : Task W) (now : Time) :
      Reachable cv s → Reachable cv (Add s task now).sched
  | remove {s : Scheduler W} (id : String) :
      Reachable cv s → Reachable cv (Remove s id).2
  | tick {s : Scheduler W} (now : Time) (w : W) (r : TickResult W) :
      Reachable cv s → Tick cv s now w = some r → Reachable cv r.sched

/-- A task as a caller builds it: always failing, `MaxRetries = 2`, a base of one millisecond. -/
def taskTwoTries : Task Nat :=
  { ID := "q1", Name := "two tries", Interval := 0, NextRun := 0, LastRun := 0,
    RetryCount := 0, MaxRetries := 2, Status := StatusPending, BackoffBase := Millisecond,
    RunFunc := some alwaysFail }

/-- A failed task after 33 consecutive failures with the default one-second base, last run at
instant 0. -/
def failedAfter33 : Task Nat :=
  { ID := "o1", Name := "overflowing", Interval := 0, NextRun := 8589934592000000000,
    LastRun := 0, RetryCount := 33, MaxRetries := 100, Status := StatusFailed,
    BackoffBase := Second, RunFunc := some alwaysFail }

/-- A registry holding only `failedAfter33`. -/
def schedFailedAfter33 : Scheduler Nat := ⟨[("o1", failedAfter33)], none⟩


/-- The world that a pass leaves according to the specification, replayed from the list of ids
that the pass returns: each listed id stands for one call of the `RunFunc` registered under it
before the pass, and exactly when that call returns an error the observer is called once, with
the task as the pass leaves it and with that error; nothing else touches the world. -/
def replayPass {W : Type} (before after : List (String × Task W)) (hd : ErrFn W) :
    List String → W → W
  | [], w => w
  | id :: rest, w =>
    match getEntry before id with
    | none => replayPass before after hd rest w
    | some t0 =>
      match t0.RunFunc with
      | none => replayPass before after hd rest w
      | some f =>
        match (f w).1, getEntry after id with
        | some e, some t2 => replayPass before after hd rest (hd t2 e (f w).2)
        | _, _ => replayPass before after hd rest (f w).2

/-- A world that is the log of an observer: for each of its calls, the id, the status and the
retry count of the task it received, and the error it received. -/
abbrev ObserverLog := List (String × TaskStatus × Int × String)

/-- An error observer writing what it receives to the log. -/
def loggingObserver : ErrFn ObserverLog :=
  fun task err log => log ++ [(task.ID, task.Status, task.RetryCount, err)]

/-- A closure returning the given error and leaving the log alone. -/
def quietFail (msg : String) : RunFn ObserverLog := fun log => (some msg, log)

/-- A closure returning nil and leaving the log alone. -/
def quietOk : RunFn ObserverLog := fun log => (none, log)

/-- A registry over the observer log, with the logging observer set: `a` is pending, due and
fails; `b` is pending, due and succeeds; `c` has failed once, its backoff has elapsed, and fails
again; `d` is Done until instant 900 and would fail; `e` is Failed with its retries exhausted. -/
def schedLogged : Scheduler ObserverLog :=
  ⟨[("a", { ID := "a", Name := "first", Interval := 0, NextRun := 10, LastRun := 0,
            RetryCount := 0, MaxRetries := 3, Status := StatusPending,
            BackoffBase := Millisecond, RunFunc := some (quietFail "disk full") }),
    ("b", { ID := "b", Name := "second", Interval := 0, NextRun := 10, LastRun := 0,
            RetryCount := 0, MaxRetries := 3, Status := StatusPending,
            BackoffBase := Millisecond, RunFunc := some quietOk }),
    ("c", { ID := "c", Name := "third", Interval := 0, NextRun := 0, LastRun := 0,
            RetryCount := 1, MaxRetries := 3, Status := StatusFailed,
            BackoffBase := 10, RunFunc := some (quietFail "timeout") }),
    ("d", { ID := "d", Name := "fourth", Interval := 0, NextRun := 900, LastRun := 0,
            RetryCount := 0, MaxRetries := 3, Status := StatusDone,
            BackoffBase := Millisecond, RunFunc := some (quietFail "unreachable") }),
    ("e", { ID := "e", Name := "fifth", Interval := 0, NextRun := 0, LastRun := 0,
            RetryCount := 3, MaxRetries := 3, Status := StatusFailed,
            BackoffBase := 10, RunFunc := some (quietFail "given up") })],
    some loggingObserver⟩

end scheduler

/-!
# The retry helper (`.github/daily-pool/day-003/retry.go`) and the job processor
(`worker/processor/processor.go`), both of package `processor`

* Durations and `int` are mathematical integers here; `time.Now()` is a reading of a clock that
  the caller of the model supplies.
* `float64(base) * math.Pow(2, float64(attempt))` is exact arithmetic on the nearest `float64` of
  `base` (`float64OfInt`); the conversion back to a `time.Duration` is exact when the value fits a
  64-bit integer, and otherwise (also for an infinity or a NaN) Go leaves the result to the
  implementation: `cv base attempt`.
* `fn func() error` is a function on an abstract world `W`, as the `RunFunc` of the scheduler.
* `time.Sleep(delay)` is recorded in the list `sleeps`.
* `map[string]string` is an association list, iterated in list order.
-/

namespace processor

/-- An instant (`time.Time`), in nanoseconds. -/
abbrev Time := Int

/-- A `time.Duration`: a signed 64-bit count of nanoseconds. -/
abbrev Duration := Int

/-- The constant `time.Millisecond`. -/
def Millisecond : Duration := 1000000

/-- The constant `time.Second`. -/
def Second : Duration := 1000000000

/-- The struct `RetryConfig`. -/
structure RetryConfig where
  MaxAttempts : Int
  BaseDelay : Duration
  MaxDelay : Duration

/-- The function `DefaultRetryConfig`. -/
def DefaultRetryConfig : RetryConfig :=
  { MaxAttempts := 3, BaseDelay := 100 * Millisecond, MaxDelay := 5 * Second }

/-- The number of low bits that a 53-bit significand cannot hold, for a natural number below
`2^64` (the absolute value of a 64-bit integer): its bit length minus 53. -/
def droppedBits (a : Nat) : Nat :=
  ((List.range 11).filter fun i => decide (2 ^ (53 + i) ≤ a)).length

/-- The conversion `float64(x)` of a 64-bit integer: the nearest number with a 53-bit
significand, ties to the even significand. Integers below `2^53` in absolute value are kept. -/
def float64OfInt (x : Int) : Int :=
  let a := x.natAbs
  if a < 2 ^ 53 then x
  else
    let e := droppedBits a
    let q := a / 2 ^ e
    let r := a % 2 ^ e
    let half := 2 ^ (e - 1)
    let q2 := if r > half ∨ (r = half ∧ q % 2 = 1) then q + 1 else q
    Int.sign x * ((q2 * 2 ^ e : Nat) : Int)

/-- The expression `time.Duration(float64(base) * math.Pow(2, float64(attempt)))` for
`attempt ≥ 0`. `math.Pow(2, n)` is finite up to `n = 1023`, and the product of a `float64` by a
power of two is exact. -/
def scaledDelay (cv : Int → Int → Int) (base : Duration) (attempt : Int) : Duration :=
  if attempt ≤ 1023 ∧ -2 ^ 63 ≤ float64OfInt base * 2 ^ attempt.toNat ∧
      float64OfInt base * 2 ^ attempt.toNat < 2 ^ 63 then
    float64OfInt base * 2 ^ attempt.toNat
  else cv base attempt

/-- The function `ExponentialDelay`. -/
def ExponentialDelay (cv : Int → Int → Int) (attempt : Int) (base : Duration) (max : Duration) :
    Duration :=
  if attempt < 0 then base
  else
    let delay := scaledDelay cv base attempt
    if delay > max then max else delay

/-- What `RetryWithBackoff` leaves behind: the returned error, the world, the results of the
calls of `fn` in order, and the delays slept in order. -/
structure RetryResult (W : Type) where
  err : Option String
  world : W
  calls : List (Option String)
  sleeps : List Duration

/-- The loop `for attempt := 0; attempt < config.MaxAttempts; attempt++` of `RetryWithBackoff`,
with `k = config.MaxAttempts - attempt` iterations left and the current `lastErr`. -/
def retryLoop {W : Type} (cv : Int → Int → Int) (config : RetryConfig)
    (fn : W → Option String × W) : Nat → Int → Option String → W → RetryResult W
  | 0, _, lastErr, w => ⟨lastErr, w, [], []⟩
  | k + 1, attempt, _, w =>
    let res := fn w
    match res.1 with
    | none => ⟨none, res.2, [none], []⟩
    | some e =>
      let slept :=
        if attempt < config.MaxAttempts - 1 then
          [ExponentialDelay cv attempt config.BaseDelay config.MaxDelay]
        else []
      let r := retryLoop cv config fn k (attempt + 1) (some e) res.2
      ⟨r.err, r.world, some e :: r.calls, slept ++ r.sleeps⟩

/-- The function `RetryWithBackoff`. -/
def RetryWithBackoff {W : Type} (cv : Int → Int → Int) (config : RetryConfig)
    (fn : W → Option String × W) (w : W) : RetryResult W :=
  if config.MaxAttempts < 1 then
    ⟨some "max attempts must be at least 1", w, [], []⟩
  else retryLoop cv config fn config.MaxAttempts.toNat 0 none w

/-- The type `Priority`, an `int`. -/
abbrev Priority := Int

/-- The type `JobStatus`, a `string`. -/
abbrev JobStatus := String

/-- The constant `Pending`. -/
def Pending : JobStatus := "pending"

/-- The constant `Running`. -/
def Running : JobStatus := "running"

/-- The constant `Completed`. -/
def Completed : JobStatus := "completed"

/-- The constant `Failed`. -/
def Failed : JobStatus := "failed"

/-- The struct `Job`. -/
structure Job where
  ID : String
  Name : String
  Priority : Priority
  Status : JobStatus
  Payload : List (String × String)
  CreatedAt : Time
  CompletedAt : Time
  deriving DecidableEq

/-- The struct `Result`. -/
structure Result where
  JobID : String
  Success : Bool
  Output : String
  Duration : Duration
  deriving DecidableEq

/-- The struct `Processor`. -/
structure Processor where
  queue : List Job
  concurrency : Int
  deriving DecidableEq

/-- The function `NewProcessor`. -/
def NewProcessor (concurrency : Int) : Processor :=
  { queue := [], concurrency := if concurrency < 1 then 1 else concurrency }

/-- The verb `%q` of `fmt`, for strings of printable characters other than the quote and the
backslash, which Go does not escape; for other strings the text of the error differs. -/
def quoted (s : String) : String :=
  String.singleton (Char.ofNat 34) ++ s ++ String.singleton (Char.ofNat 34)

/-- The method `Processor.Enqueue`, performed at instant `now` (`time.Now()`): the returned error
and the processor afterwards. -/
def Enqueue (p : Processor) (job : Job) (now : Time) : Option String × Processor :=
  if job.ID = "" then (some "job ID must not be empty", p)
  else if job.Name = "" then (some "job name must not be empty", p)
  else if p.queue.any (fun existing => decide (existing.ID = job.ID)) then
    (some ("job with ID " ++ quoted job.ID ++ " already exists"), p)
  else
    let job1 := { job with Status := Pending }
    let job2 := { job1 with CreatedAt := now }
    (none, { p with queue := p.queue ++ [job2] })

/-- The method `Processor.Process` on the job behind the pointer, with the three readings of the
clock it makes: at its start, for `CompletedAt`, and in `time.Since(start)`. -/
def Process (job : Job) (start done finish : Time) : Job × Result :=
  let job1 := { job with Status := Running }
  if (job1.Payload.any fun kv => decide (kv.1 = "fail")) then
    let job2 := { job1 with Status := Failed }
    let job3 := { job2 with CompletedAt := done }
    (job3, { JobID := job3.ID, Success := false,
             Output := "job failed: failure flag set in payload", Duration := finish - start })
  else
    let parts := job1.Payload.map fun kv => kv.1 ++ "=" ++ kv.2
    let job2 := { job1 with Status := Completed }
    let job3 := { job2 with CompletedAt := done }
    (job3, { JobID := job3.ID, Success := true,
             Output := "processed " ++ job3.Name ++ " [" ++ ", ".intercalate parts ++ "]",
             Duration := finish - start })

/-- The method `Processor.PendingCount`. -/
def PendingCount (p : Processor) : Nat :=
  p.queue.foldl (fun count j => if j.Status = Pending then count + 1 else count) 0

/-- The loop `for i := range p.queue` of `ProcessAll` over the jobs still to visit; `clk` is the
clock and `k` the number of readings made so far. -/
def processLoop (clk : Nat → Time) : List Job → Nat → List Job × List Result
  | [], _ => ([], [])
  | job :: rest, k =>
    if job.Status = Pending then
      let r := Process job (clk k) (clk (k + 1)) (clk (k + 2))
      let out := processLoop clk rest (k + 3)
      (r.1 :: out.1, r.2 :: out.2)
    else
      let out := processLoop clk rest k
      (job :: out.1, out.2)

/-- The method `Processor.ProcessAll`: the results and the processor afterwards. -/
def ProcessAll (p : Processor) (clk : Nat → Time) : List Result × Processor :=
  let out := processLoop clk p.queue 0
  (out.2, { p with queue := out.1 })

/-- The states of a processor that `NewProcessor`, `Enqueue` and `ProcessAll` can produce. -/
inductive Reachable : Processor → Prop where
  | init (concurrency : Int) : Reachable (NewProcessor concurrency)
  | enqueue {p : Processor} (job : Job) (now : Time) :
      Reachable p → Reachable (Enqueue p job now).2
  | processAll {p : Processor} (clk : Nat → Time) :
      Reachable p → Reachable (ProcessAll p clk).2

/-- The out-of-range conversion as amd64 does it: the smallest 64-bit integer. -/
def cvAmd64 : Int → Int → Int := fun _ _ => -2 ^ 63

/-- The closure of `TestRetryWithBackoffSuccess`: `calls++`, an error while `calls < 3`. -/
def notYetTwice : Nat → Option String × Nat :=
  fun n => (if n + 1 < 3 then some "not yet" else none, n + 1)

/-- The closure of `TestRetryWithBackoffAllFail`, counting its calls. -/
def alwaysFail : Nat → Option String × Nat := fun n => (some "fail", n + 1)

/-- The configuration of `TestRetryWithBackoffSuccess`. -/
def configThree : RetryConfig :=
  { MaxAttempts := 3, BaseDelay := Millisecond, MaxDelay := 10 * Millisecond }

/-- The first job of `main`. -/
def jobOne : Job :=
  { ID := "job-1", Name := "Send welcome email", Priority := 2, Status := "",
    Payload := [("to", "user@example.com")], CreatedAt := 0, CompletedAt := 0 }

/-- A job whose payload has the key `fail`. -/
def jobFailing : Job :=
  { ID := "job-2", Name := "bad job", Priority := 0, Status := "",
    Payload := [("fail", "true")], CreatedAt := 0, CompletedAt := 0 }

/-- A clock ticking once per reading, from instant 1000. -/
def tickingClock : Nat → Time := fun k => 1000 + k

/-- A third job, with a payload of two keys. -/
def jobThree : Job :=
  { ID := "job-3", Name := "Resize image", Priority := 0, Status := "",
    Payload := [("width", "800"), ("height", "600")], CreatedAt := 0, CompletedAt := 0 }

/-- A processor that enqueued `jobOne`, processed it, and then enqueued `jobFailing` and
`jobThree`. -/
def queueOfThree : Processor :=
  (Enqueue
    (Enqueue (ProcessAll (Enqueue (NewProcessor 2) jobOne 5).2 tickingClock).2 jobFailing 20).2
    jobThree 21).2

end processor

namespace scheduler
open TaskStatus

/-! ## Lemmas on the registry and on the loop of `handleDue` -/

/-- The method `now.After(t)` is the strict order. -/
theorem After_iff (now t : Time) : After now t = true ↔ t < now := by
  simp [After]

section registry
variable {W : Type}

theorem getEntry_mem {l : List (String × Task W)} {id : String} {t : Task W}
    (h : getEntry l id = some t) : (id, t) ∈ l := by
  induction l with
  | nil => simp [getEntry] at h
  | cons e rest ih =>
    obtain ⟨k, v⟩ := e
    by_cases hk : k = id
    · simp [getEntry, hk] at h
      simp [hk, h]
    · simp [getEntry, hk] at h
      exact List.mem_cons_of_mem _ (ih h)

theorem getEntry_of_mem {l : List (String × Task W)} {id : String} {t : Task W}
    (hnd : (l.map Prod.fst).Nodup) (h : (id, t) ∈ l) : getEntry l id = some t := by
  induction l with
  | nil => simp at h
  | cons e rest ih =>
    obtain ⟨k, v⟩ := e
    simp only [List.map_cons, List.nodup_cons] at hnd
    rcases List.mem_cons.1 h with heq | hmem
    · cases heq
      simp [getEntry]
    · have hne : k ≠ id := by
        intro hk
        apply hnd.1
        rw [hk]
        exact List.mem_map_of_mem Prod.fst hmem
      simp [getEntry, hne, ih hnd.2 hmem]

theorem getEntry_none_iff {l : List (String × Task W)} {id : String} :
    getEntry l id = none ↔ id ∉ l.map Prod.fst := by
  induction l with
  | nil => simp [getEntry]
  | cons e rest ih =>
    obtain ⟨k, v⟩ := e
    by_cases hk : k = id
    · simp [getEntry, hk]
    · simp only [getEntry, hk, if_false, ih, List.map_cons, List.mem_cons]
      constructor
      · intro h1 h2
        rcases h2 with h2 | h2
        · exact hk h2.symm
        · exact h1 h2
      · intro h1 h2
        exact h1 (Or.inr h2)

theorem getEntry_setEntry_same (l : List (String × Task W)) (id : String) (t : Task W) :
    getEntry (setEntry l id t) id = some t := by
  induction l with
  | nil => simp [setEntry, getEntry]
  | cons e rest ih =>
    obtain ⟨k, v⟩ := e
    by_cases hk : k = id
    · simp [setEntry, getEntry, hk]
    · simp [setEntry, getEntry, hk, ih]

theorem getEntry_setEntry_other (l : List (String × Task W)) {id id2 : String} (t : Task W)
    (hne : id2 ≠ id) : getEntry (setEntry l id t) id2 = getEntry l id2 := by
  induction l with
  | nil => simp [setEntry, getEntry, Ne.symm hne]
  | cons e rest ih =>
    obtain ⟨k, v⟩ := e
    by_cases hk : k = id
    · subst hk
      simp [setEntry, getEntry, Ne.symm hne]
    · by_cases hk2 : k = id2
      · subst hk2
        simp [setEntry, getEntry, hk]
      · simp [setEntry, getEntry, hk, hk2, ih]

theorem getEntry_deleteEntry_other (l : List (String × Task W)) {id id2 : String}
    (hne : id2 ≠ id) : getEntry (deleteEntry l id) id2 = getEntry l id2 := by
  induction l with
  | nil => simp [deleteEntry, getEntry]
  | cons e rest ih =>
    obtain ⟨k, v⟩ := e
    by_cases hk : k = id
    · subst hk
      simp [deleteEntry, getEntry, Ne.symm hne, ih]
    · by_cases hk2 : k = id2
      · subst hk2
        simp [deleteEntry, getEntry, hk]
      · simp [deleteEntry, getEntry, hk, hk2, ih]

end registry

section loop
variable {W : Type} (cv : Int → Int) (onError : Option (ErrFn W)) (now : Time)

theorem handleDueLoop_cons_skip (id : String) (task : Task W) (rest : List (String × Task W))
    (w : W) (hs : shouldSkip cv now task = true) :
    handleDueLoop cv onError now ((id, task) :: rest) w =
      (handleDueLoop cv onError now rest w).map fun o =>
        { o with tasks := (id, task) :: o.tasks } := by
  simp [handleDueLoop, hs]

theorem handleDueLoop_cons_run (id : String) (task : Task W) (rest : List (String × Task W))
    (w : W) (f : RunFn W) (hs : shouldSkip cv now task = false) (hf : task.RunFunc = some f) :
    handleDueLoop cv onError now ((id, task) :: rest) w =
      (handleDueLoop cv onError now rest
          (callOnError onError (settle cv now (markRunning now task) (f w).1) (f w).1 (f w).2)).map
        fun o =>
          { tasks := (id, settle cv now (markRunning now task) (f w).1) :: o.tasks
            world := o.world
            executed := id :: o.executed
            invoked := (id, (f w).1) :: o.invoked
            observed :=
              onErrorCalls onError (settle cv now (markRunning now task) (f w).1) (f w).1 ++
                o.observed } := by
  simp [handleDueLoop, hs, hf]

theorem handleDueLoop_cons_nil (id : String) (task : Task W) (rest : List (String × Task W))
    (w : W) (hs : shouldSkip cv now task = false) (hf : task.RunFunc = none) :
    handleDueLoop cv onError now ((id, task) :: rest) w = none := by
  simp [handleDueLoop, hs, hf]

theorem handleDueLoop_total (l : List (String × Task W)) (w : W)
    (hf : ∀ e ∈ l, e.2.RunFunc.isSome = true) :
    ∃ o, handleDueLoop cv onError now l w = some o := by
  induction l generalizing w with
  | nil => exact ⟨_, rfl⟩
  | cons e rest ih =>
    obtain ⟨k, v⟩ := e
    have hrest : ∀ e ∈ rest, e.2.RunFunc.isSome = true :=
      fun e he => hf e (List.mem_cons_of_mem _ he)
    have hv : v.RunFunc.isSome = true := hf (k, v) (List.mem_cons_self _ _)
    obtain ⟨f, hfv⟩ := Option.isSome_iff_exists.1 hv
    cases hs : shouldSkip cv now v with
    | true =>
      obtain ⟨o, ho⟩ := ih w hrest
      rw [handleDueLoop_cons_skip cv onError now k v rest w hs, ho]
      exact ⟨_, rfl⟩
    | false =>
      rw [handleDueLoop_cons_run cv onError now k v rest w f hs hfv]
      obtain ⟨o, ho⟩ := ih
        (callOnError onError (settle cv now (markRunning now v) (f w).1) (f w).1 (f w).2) hrest
      rw [ho]
      exact ⟨_, rfl⟩

/-- The step analysis used by every induction over the loop: a successful run of the loop on
`(id, task) :: rest` is either a skip of `task` followed by the loop on `rest`, or a call of the
`RunFunc` of `task` followed by the loop on `rest`. -/
theorem handleDueLoop_cons_cases {id : String} {task : Task W} {rest : List (String × Task W)}
    {w : W} {o : LoopOut W}
    (h : handleDueLoop cv onError now ((id, task) :: rest) w = some o) :
    (shouldSkip cv now task = true ∧ ∃ o2, handleDueLoop cv onError now rest w = some o2 ∧
        o = { o2 with tasks := (id, task) :: o2.tasks }) ∨
    (shouldSkip cv now task = false ∧ ∃ f w2 o2, task.RunFunc = some f ∧
        handleDueLoop cv onError now rest w2 = some o2 ∧
        o = { tasks := (id, settle cv now (markRunning now task) (f w).1) :: o2.tasks
              world := o2.world
              executed := id :: o2.executed
              invoked := (id, (f w).1) :: o2.invoked
              observed :=
                onErrorCalls onError (settle cv now (markRunning now task) (f w).1) (f w).1 ++
                  o2.observed }) := by
  cases hs : shouldSkip cv now task with
  | true =>
    left
    rw [handleDueLoop_cons_skip cv onError now id task rest w hs] at h
    obtain ⟨o2, ho2, heq⟩ := Option.map_eq_some'.1 h
    exact ⟨rfl, o2, ho2, heq.symm⟩
  | false =>
    right
    cases hf : task.RunFunc with
    | none =>
      rw [handleDueLoop_cons_nil cv onError now id task rest w hs hf] at h
      exact absurd h (by simp)
    | some f =>
      rw [handleDueLoop_cons_run cv onError now id task rest w f hs hf] at h
      obtain ⟨o2, ho2, heq⟩ := Option.map_eq_some'.1 h
      exact ⟨rfl, f, _, o2, rfl, ho2, heq.symm⟩

theorem handleDueLoop_keys {l : List (String × Task W)} {w : W} {o : LoopOut W}
    (h : handleDueLoop cv onError now l w = some o) :
    o.tasks.map Prod.fst = l.map Prod.fst := by
  induction l generalizing w o with
  | nil =>
    simp [handleDueLoop] at h
    subst h
    rfl
  | cons e rest ih =>
    obtain ⟨k, v⟩ := e
    rcases handleDueLoop_cons_cases cv onError now h with
      ⟨_, o2, ho2, rfl⟩ | ⟨_, f, w2, o2, _, ho2, rfl⟩
    · simp [ih ho2]
    · simp [ih ho2]

theorem handleDueLoop_invoked_keys {l : List (String × Task W)} {w : W} {o : LoopOut W}
    (h : handleDueLoop cv onError now l w = some o) :
    o.invoked.map Prod.fst = o.executed := by
  induction l generalizing w o with
  | nil =>
    simp [handleDueLoop] at h
    subst h
    rfl
  | cons e rest ih =>
    obtain ⟨k, v⟩ := e
    rcases handleDueLoop_cons_cases cv onError now h with
      ⟨_, o2, ho2, rfl⟩ | ⟨_, f, w2, o2, _, ho2, rfl⟩
    · simp [ih ho2]
    · simp [ih ho2]

theorem handleDueLoop_executed {l : List (String × Task W)} {w : W} {o : LoopOut W}
    (h : handleDueLoop cv onError now l w = some o) :
    o.executed = (l.filter fun e => !shouldSkip cv now e.2).map Prod.fst := by
  induction l generalizing w o with
  | nil =>
    simp [handleDueLoop] at h
    subst h
    rfl
  | cons e rest ih =>
    obtain ⟨k, v⟩ := e
    rcases handleDueLoop_cons_cases cv onError now h with
      ⟨hs, o2, ho2, rfl⟩ | ⟨hs, f, w2, o2, _, ho2, rfl⟩
    · simp [ih ho2, hs]
    · simp [ih ho2, hs]

/-- A skipped entry is kept as it is; it is not listed. -/
theorem handleDueLoop_skipped {l : List (String × Task W)} {w : W} {o : LoopOut W}
    (h : handleDueLoop cv onError now l w = some o) (hnd : (l.map Prod.fst).Nodup)
    {id : String} {t : Task W} (hmem : (id, t) ∈ l) (hs : shouldSkip cv now t = true) :
    (id, t) ∈ o.tasks ∧ id ∉ o.executed := by
  induction l generalizing w o with
  | nil => simp at hmem
  | cons e rest ih =>
    obtain ⟨k, v⟩ := e
    simp only [List.map_cons, List.nodup_cons] at hnd
    have hkeys : ∀ o2 w2, handleDueLoop cv onError now rest w2 = some o2 → k ∉ o2.executed := by
      intro o2 w2 ho2 hk
      rw [handleDueLoop_executed cv onError now ho2] at hk
      obtain ⟨e, he, hek⟩ := List.mem_map.1 hk
      exact hnd.1 (List.mem_map.2 ⟨e, (List.mem_filter.1 he).1, hek⟩)
    rcases handleDueLoop_cons_cases cv onError now h with
      ⟨hs2, o2, ho2, rfl⟩ | ⟨hs2, f, w2, o2, _, ho2, rfl⟩
    · rcases List.mem_cons.1 hmem with heq | hmem2
      · cases heq
        exact ⟨List.mem_cons_self _ _, hkeys o2 w ho2⟩
      · have := ih ho2 hnd.2 hmem2
        exact ⟨List.mem_cons_of_mem _ this.1, this.2⟩
    · rcases List.mem_cons.1 hmem with heq | hmem2
      · cases heq
        rw [hs] at hs2
        exact absurd hs2 (by simp)
      · have := ih ho2 hnd.2 hmem2
        refine ⟨List.mem_cons_of_mem _ this.1, ?_⟩
        intro hin
        rcases List.mem_cons.1 hin with hk | hin2
        · apply hnd.1
          rw [← hk]
          exact List.mem_map_of_mem Prod.fst hmem2
        · exact this.2 hin2

/-- An entry that is not skipped has its `RunFunc` called, is listed, and is left as `settle`
makes it from the result of the call. -/
theorem handleDueLoop_ran {l : List (String × Task W)} {w : W} {o : LoopOut W}
    (h : handleDueLoop cv onError now l w = some o)
    {id : String} {t : Task W} (hmem : (id, t) ∈ l) (hs : shouldSkip cv now t = false) :
    ∃ err, (id, err) ∈ o.invoked ∧ id ∈ o.executed ∧
      (id, settle cv now (markRunning now t) err) ∈ o.tasks := by
  induction l generalizing w o with
  | nil => simp at hmem
  | cons e rest ih =>
    obtain ⟨k, v⟩ := e
    rcases handleDueLoop_cons_cases cv onError now h with
      ⟨hs2, o2, ho2, rfl⟩ | ⟨hs2, f, w2, o2, _, ho2, rfl⟩
    · rcases List.mem_cons.1 hmem with heq | hmem2
      · cases heq
        rw [hs] at hs2
        exact absurd hs2 (by simp)
      · obtain ⟨err, h1, h2, h3⟩ := ih ho2 hmem2
        exact ⟨err, h1, h2, List.mem_cons_of_mem _ h3⟩
    · rcases List.mem_cons.1 hmem with heq | hmem2
      · cases heq
        exact ⟨_, List.mem_cons_self _ _, List.mem_cons_self _ _, List.mem_cons_self _ _⟩
      · obtain ⟨err, h1, h2, h3⟩ := ih ho2 hmem2
        exact ⟨err, List.mem_cons_of_mem _ h1, List.mem_cons_of_mem _ h2,
          List.mem_cons_of_mem _ h3⟩

/-- With unique keys, the record of calls holds at most one result per id. -/
theorem handleDueLoop_invoked_unique {l : List (String × Task W)} {w : W} {o : LoopOut W}
    (h : handleDueLoop cv onError now l w = some o) (hnd : (l.map Prod.fst).Nodup)
    {id : String} {a b : Option String} (ha : (id, a) ∈ o.invoked) (hb : (id, b) ∈ o.invoked) :
    a = b := by
  have hsub : (o.invoked.map Prod.fst).Nodup := by
    rw [handleDueLoop_invoked_keys cv onError now h, handleDueLoop_executed cv onError now h]
    exact (List.Nodup.sublist (List.Sublist.map _ (List.filter_sublist _)) hnd)
  have hinj := List.inj_on_of_nodup_map hsub ha hb rfl
  exact (Prod.mk.inj hinj).2

end loop

section arith

theorem wrap64_of_range {x : Int} (h1 : -2 ^ 63 ≤ x) (h2 : x < 2 ^ 63) : wrap64 x = x := by
  unfold wrap64
  omega

theorem wrap64_le {x : Int} (h1 : -2 ^ 63 ≤ x) : wrap64 x ≤ x := by
  unfold wrap64
  omega

theorem le_wrap64 {x : Int} (h2 : x < 2 ^ 63) : x ≤ wrap64 x := by
  unfold wrap64
  omega

theorem wrap64_lt (x : Int) : wrap64 x < 2 ^ 63 := by
  unfold wrap64
  omega

theorem wrap64_ge (x : Int) : -2 ^ 63 ≤ wrap64 x := by
  unfold wrap64
  omega

theorem pow2Duration_of_range (cv : Int → Int) {n : Int} (h0 : 0 ≤ n) (h1 : n ≤ 62) :
    pow2Duration cv n = 2 ^ n.toNat := by
  unfold pow2Duration
  rw [if_neg (by omega), if_pos h1]

/-- Where nothing overflows, the computed backoff is `base * 2 ^ n`. -/
theorem backoff_of_range (cv : Int → Int) {base n : Int} (h0 : 0 ≤ n) (h1 : n ≤ 62)
    (hlo : -2 ^ 63 ≤ base * 2 ^ n.toNat) (hhi : base * 2 ^ n.toNat < 2 ^ 63) :
    backoff cv base n = base * 2 ^ n.toNat := by
  unfold backoff
  rw [pow2Duration_of_range cv h0 h1]
  exact wrap64_of_range hlo hhi

/-- The computed backoff is not below `base * 2 ^ n` unless the product exceeds the largest
64-bit integer. -/
theorem le_backoff (cv : Int → Int) {base n : Int} (h0 : 0 ≤ n) (h1 : n ≤ 62)
    (hhi : base * 2 ^ n.toNat < 2 ^ 63) : base * 2 ^ n.toNat ≤ backoff cv base n := by
  unfold backoff
  rw [pow2Duration_of_range cv h0 h1]
  exact le_wrap64 hhi

/-- The computed backoff is not above `base * 2 ^ n` unless the product is below the smallest
64-bit integer. -/
theorem backoff_le_of_lower (cv : Int → Int) {base n : Int} (h0 : 0 ≤ n) (h1 : n ≤ 62)
    (hlo : -2 ^ 63 ≤ base * 2 ^ n.toNat) : backoff cv base n ≤ base * 2 ^ n.toNat := by
  unfold backoff
  rw [pow2Duration_of_range cv h0 h1]
  exact wrap64_le hlo

/-- For a non-negative base and exponent the computed backoff never exceeds `base * 2 ^ n`,
whatever the conversion does with exponents above 62. -/
theorem backoff_le (cv : Int → Int) {base n : Int} (hb : 0 ≤ base) (h0 : 0 ≤ n) :
    backoff cv base n ≤ base * 2 ^ n.toNat := by
  unfold backoff
  by_cases h1 : n ≤ 62
  · rw [pow2Duration_of_range cv h0 h1]
    apply wrap64_le
    have : (0 : Int) ≤ base * 2 ^ n.toNat := Int.mul_nonneg hb (by positivity)
    omega
  · rcases hb.eq_or_lt with hz | hpos
    · subst hz
      simp [wrap64]
    · have h63 : 63 ≤ n.toNat := by omega
      have hpow : (2 : Int) ^ 63 ≤ 2 ^ n.toNat := pow_le_pow_right₀ (by norm_num) h63
      have h2 : (2 : Int) ^ n.toNat ≤ base * 2 ^ n.toNat := by
        have hb1 : (1 : Int) ≤ base := hpos
        nlinarith [pow_pos (by norm_num : (0 : Int) < 2) n.toNat]
      exact le_trans (le_of_lt (wrap64_lt (base * pow2Duration cv n))) (le_trans hpow h2)

end arith

section skip
variable {W : Type} (cv : Int → Int) (now : Time)

theorem shouldSkip_running {t : Task W} (h : t.Status = StatusRunning) :
    shouldSkip cv now t = true := by
  simp [shouldSkip, h]

theorem shouldSkip_pending_done {t : Task W}
    (h : t.Status = StatusPending ∨ t.Status = StatusDone) :
    shouldSkip cv now t = false ↔ t.NextRun < now := by
  rcases h with h | h <;> simp [shouldSkip, h, After]

theorem shouldSkip_failed {t : Task W} (h : t.Status = StatusFailed) :
    shouldSkip cv now t = false ↔
      t.RetryCount < t.MaxRetries ∧ t.LastRun + backoff cv t.BackoffBase t.RetryCount < now := by
  simp [shouldSkip, h, After]

end skip

section pass
variable {W : Type} (cv : Int → Int)

theorem handleDue_eq_some {s : Scheduler W} {now : Time} {w : W} {r : TickResult W}
    (h : handleDue cv s now w = some r) :
    ∃ o, handleDueLoop cv s.onError now s.tasks w = some o ∧
      r = ⟨o.executed, { s with tasks := o.tasks }, o.world, o.invoked, o.observed⟩ := by
  unfold handleDue at h
  split at h
  · exact absurd h (by simp)
  · rename_i o ho
    exact ⟨o, ho, (Option.some.inj h).symm⟩

theorem handleDue_total (s : Scheduler W) (now : Time) (w : W) (hf : RunFuncsSet s) :
    ∃ r, handleDue cv s now w = some r := by
  obtain ⟨o, ho⟩ := handleDueLoop_total cv s.onError now s.tasks w hf
  unfold handleDue
  rw [ho]
  exact ⟨_, rfl⟩

theorem handleDue_keys {s : Scheduler W} {now : Time} {w : W} {r : TickResult W}
    (h : handleDue cv s now w = some r) :
    r.sched.tasks.map Prod.fst = s.tasks.map Prod.fst := by
  obtain ⟨o, ho, rfl⟩ := handleDue_eq_some cv h
  exact handleDueLoop_keys cv s.onError now ho

theorem handleDue_keysNodup {s : Scheduler W} {now : Time} {w : W} {r : TickResult W}
    (h : handleDue cv s now w = some r) (hk : KeysNodup s) : KeysNodup r.sched := by
  unfold KeysNodup
  rw [handleDue_keys cv h]
  exact hk

/-- A registered task that the pass skips: same entry afterwards, no call, not listed. -/
theorem handleDue_skipped {s : Scheduler W} {now : Time} {w : W} {r : TickResult W}
    (h : handleDue cv s now w = some r) (hk : KeysNodup s) {id : String} {t : Task W}
    (hget : GetTask s id = some t) (hs : shouldSkip cv now t = true) :
    GetTask r.sched id = some t ∧ id ∉ r.executed ∧ ∀ err, (id, err) ∉ r.invoked := by
  have hk2 := handleDue_keysNodup cv h hk
  obtain ⟨o, ho, rfl⟩ := handleDue_eq_some cv h
  have hsk := handleDueLoop_skipped cv s.onError now ho hk (getEntry_mem hget) hs
  refine ⟨getEntry_of_mem hk2 hsk.1, hsk.2, ?_⟩
  intro err herr
  apply hsk.2
  rw [← handleDueLoop_invoked_keys cv s.onError now ho]
  exact List.mem_map_of_mem Prod.fst herr

/-- A registered task that the pass does not skip: its `RunFunc` is called once, with some result
`err`, the id is listed, and the entry afterwards is what `settle` makes of it. -/
theorem handleDue_ran {s : Scheduler W} {now : Time} {w : W} {r : TickResult W}
    (h : handleDue cv s now w = some r) (hk : KeysNodup s) {id : String} {t : Task W}
    (hget : GetTask s id = some t) (hs : shouldSkip cv now t = false) :
    ∃ err, (id, err) ∈ r.invoked ∧ id ∈ r.executed ∧
      GetTask r.sched id = some (settle cv now (markRunning now t) err) ∧
      ∀ err2, (id, err2) ∈ r.invoked → err2 = err := by
  have hk2 := handleDue_keysNodup cv h hk
  obtain ⟨o, ho, rfl⟩ := handleDue_eq_some cv h
  obtain ⟨err, h1, h2, h3⟩ := handleDueLoop_ran cv s.onError now ho (getEntry_mem hget) hs
  exact ⟨err, h1, h2, getEntry_of_mem hk2 h3,
    fun err2 h4 => handleDueLoop_invoked_unique cv s.onError now ho hk h4 h1⟩

/-- A call recorded for a registered id: the task was not skipped, and its entry afterwards is
what `settle` makes of it from the recorded result. -/
theorem handleDue_invoked_result {s : Scheduler W} {now : Time} {w : W} {r : TickResult W}
    (h : handleDue cv s now w = some r) (hk : KeysNodup s) {id : String} {t : Task W}
    (hget : GetTask s id = some t) {err : Option String} (hinv : (id, err) ∈ r.invoked) :
    shouldSkip cv now t = false ∧
      GetTask r.sched id = some (settle cv now (markRunning now t) err) := by
  cases hs : shouldSkip cv now t with
  | true => exact absurd hinv ((handleDue_skipped cv h hk hget hs).2.2 err)
  | false =>
    obtain ⟨err2, _, _, h3, h4⟩ := handleDue_ran cv h hk hget hs
    rw [h4 err hinv]
    exact ⟨rfl, h3⟩

theorem handleDueLoop_runFuncs (onError : Option (ErrFn W)) (now : Time)
    {l : List (String × Task W)} {w : W} {o : LoopOut W}
    (ho : handleDueLoop cv onError now l w = some o)
    (hf : ∀ e ∈ l, e.2.RunFunc.isSome = true) : ∀ e ∈ o.tasks, e.2.RunFunc.isSome = true := by
  induction l generalizing w o with
  | nil =>
    simp [handleDueLoop] at ho
    subst ho
    simp
  | cons e rest ih =>
    obtain ⟨k, v⟩ := e
    have hrest : ∀ e ∈ rest, e.2.RunFunc.isSome = true :=
      fun e he => hf e (List.mem_cons_of_mem _ he)
    have hv : v.RunFunc.isSome = true := hf (k, v) (List.mem_cons_self _ _)
    rcases handleDueLoop_cons_cases cv onError now ho with
      ⟨_, o2, ho2, rfl⟩ | ⟨_, f, w2, o2, _, ho2, rfl⟩
    · intro e he
      rcases List.mem_cons.1 he with heq | he2
      · subst heq
        exact hv
      · exact ih ho2 hrest e he2
    · intro e he
      rcases List.mem_cons.1 he with heq | he2
      · subst heq
        cases hfw : (f w).1 <;> simpa [settle, markRunning, hfw] using hv
      · exact ih ho2 hrest e he2

/-- The pass keeps every `RunFunc`. -/
theorem handleDue_runFuncsSet {s : Scheduler W} {now : Time} {w : W} {r : TickResult W}
    (h : handleDue cv s now w = some r) (hf : RunFuncsSet s) : RunFuncsSet r.sched := by
  obtain ⟨o, ho, rfl⟩ := handleDue_eq_some cv h
  exact handleDueLoop_runFuncs cv s.onError now ho hf

end pass

/-! ## The claims -/

/-- C1, as stated, fails at `now == nextRun`: a pending task with `NextRun = 100` is not run by
`handleDue(100)`; nothing is called and nothing is listed. -/
theorem C1_counterexample :
    (GetTask schedPendingAt100 "t1").map (fun t => (t.Status, decide (t.NextRun ≤ 100))) =
        some (StatusPending, true) ∧
      (handleDue cvAmd64 schedPendingAt100 100 0).map (fun r => (r.executed, r.invoked)) =
        some ([], []) := by
  decide

/-- C1 (amended): for every registered task whose status is Pending or Done and every instant
`now` strictly after the task's `NextRun`, `handleDue(now)` returns, calls the task's `RunFunc`
and lists the task's id. -/
theorem C1_due_task_runs {W : Type} (cv : Int → Int) (s : Scheduler W) (now : Time) (w : W)
    (id : String) (t : Task W) (hk : KeysNodup s) (hf : RunFuncsSet s)
    (hget : GetTask s id = some t)
    (hst : t.Status = StatusPending ∨ t.Status = StatusDone) (hnow : t.NextRun < now) :
    ∃ r, handleDue cv s now w = some r ∧ (∃ err, (id, err) ∈ r.invoked) ∧ id ∈ r.executed := by
  obtain ⟨r, hr⟩ := handleDue_total cv s now w hf
  have hs : shouldSkip cv now t = false := (shouldSkip_pending_done cv now hst).2 hnow
  obtain ⟨err, h1, h2, _⟩ := handleDue_ran cv hr hk hget hs
  exact ⟨r, hr, ⟨err, h1⟩, h2⟩

/-- C1 (amended) at a concrete registry: the pending task with `NextRun = 100` runs at 101. -/
theorem C1_due_task_runs_witness :
    ∃ r, handleDue cvAmd64 schedPendingAt100 101 0 = some r ∧
      (∃ err, ("t1", err) ∈ r.invoked) ∧ "t1" ∈ r.executed :=
  C1_due_task_runs cvAmd64 schedPendingAt100 101 0 "t1" pendingAt100 (by decide) (by decide) rfl
    (Or.inl rfl) (by decide)

/-- C2, as stated, fails when the product overflows: after 34 failures with a one-second base the
computed backoff `10^9 * 2^34` wraps to a negative duration, and the failed task is run at
instant 1 although `lastRun + backoffBase * 2^retryCount` is far in the future. -/
theorem C2_counterexample :
    (GetTask schedFailedAfter34 "f1").map
        (fun t => (t.Status, decide (1 < t.LastRun + t.BackoffBase * 2 ^ t.RetryCount.toNat))) =
        some (StatusFailed, true) ∧
      (handleDue cvAmd64 schedFailedAfter34 1 0).map (fun r => r.invoked) =
        some [("f1", none)] := by
  decide

/-- C2 (amended): for every registered task whose status is Failed, with `0 ≤ retryCount ≤ 62` and
`backoffBase * 2^retryCount` not above the largest 64-bit integer, `handleDue(now)` calls the
task's `RunFunc` only if `retryCount < maxRetries` and `now` is strictly after (so at or past)
`lastRun + backoffBase * 2^retryCount`, with the values read before the pass. -/
theorem C2_failed_runs_only_if {W : Type} (cv : Int → Int) (s : Scheduler W) (now : Time) (w : W)
    (id : String) (t : Task W) (r : TickResult W) (hk : KeysNodup s)
    (hpass : handleDue cv s now w = some r) (hget : GetTask s id = some t)
    (hst : t.Status = StatusFailed) (hrc0 : 0 ≤ t.RetryCount) (hrc1 : t.RetryCount ≤ 62)
    (hfit : t.BackoffBase * 2 ^ t.RetryCount.toNat < 2 ^ 63)
    (hinv : ∃ err, (id, err) ∈ r.invoked) :
    t.RetryCount < t.MaxRetries ∧
      t.LastRun + t.BackoffBase * 2 ^ t.RetryCount.toNat < now := by
  cases hs : shouldSkip cv now t with
  | true =>
    obtain ⟨err, herr⟩ := hinv
    exact absurd herr ((handleDue_skipped cv hpass hk hget hs).2.2 err)
  | false =>
    obtain ⟨h1, h2⟩ := (shouldSkip_failed cv now hst).1 hs
    have hle := le_backoff cv hrc0 hrc1 hfit
    exact ⟨h1, lt_of_le_of_lt (add_le_add_left hle _) h2⟩

/-- C2 (amended) at a concrete registry: the task failed once at instant 1000 with a base of one
millisecond is run by `handleDue(2001001)`, and indeed `1 < 3` and `1000 + 2 * 10^6 < 2001001`. -/
theorem C2_failed_runs_only_if_witness :
    (handleDue cvAmd64 schedFailedOnce 2001001 0).map (fun r => r.invoked) =
        some [("f2", none)] ∧
      failedOnce.RetryCount < failedOnce.MaxRetries ∧
      failedOnce.LastRun + failedOnce.BackoffBase * 2 ^ failedOnce.RetryCount.toNat < 2001001 :=
  ⟨by decide,
    C2_failed_runs_only_if cvAmd64 schedFailedOnce 2001001 0 "f2" failedOnce
      ⟨["f2"], ⟨[("f2", settle cvAmd64 2001001 (markRunning 2001001 failedOnce) none)], none⟩,
        1, [("f2", none)], []⟩
      (by decide) rfl rfl rfl (by decide) (by decide) (by decide)
      ⟨none, List.mem_cons_self _ _⟩⟩

/-- C3, as stated, fails for a negative base whose product wraps: with `backoffBase = -2^62` and
`retryCount = 2` the computed backoff is `0`, so at `now = lastRun = 0`, which is strictly later
than `lastRun + backoffBase * 2^retryCount`, the task is skipped. -/
theorem C3_counterexample :
    (GetTask schedFailedNegativeBase "f3").map
        (fun t => (t.Status, decide (t.RetryCount < t.MaxRetries),
          decide (t.LastRun + t.BackoffBase * 2 ^ t.RetryCount.toNat < 0))) =
        some (StatusFailed, true, true) ∧
      (handleDue cvAmd64 schedFailedNegativeBase 0 0).map (fun r => (r.executed, r.invoked)) =
        some ([], []) := by
  decide

/-- C3 (amended): for every registered task with status Failed, `0 ≤ retryCount < maxRetries` and
`backoffBase ≥ 0`, and every instant `now` strictly later than
`lastRun + backoffBase * 2^retryCount`, `handleDue(now)` returns and calls the task's `RunFunc`,
whatever the task's `NextRun` is. -/
theorem C3_failed_task_retried {W : Type} (cv : Int → Int) (s : Scheduler W) (now : Time) (w : W)
    (id : String) (t : Task W) (hk : KeysNodup s) (hf : RunFuncsSet s)
    (hget : GetTask s id = some t) (hst : t.Status = StatusFailed)
    (hrc0 : 0 ≤ t.RetryCount) (hlt : t.RetryCount < t.MaxRetries) (hb : 0 ≤ t.BackoffBase)
    (hnow : t.LastRun + t.BackoffBase * 2 ^ t.RetryCount.toNat < now) :
    ∃ r, handleDue cv s now w = some r ∧ (∃ err, (id, err) ∈ r.invoked) ∧ id ∈ r.executed := by
  obtain ⟨r, hr⟩ := handleDue_total cv s now w hf
  have hle := backoff_le cv hb hrc0
  have hs : shouldSkip cv now t = false :=
    (shouldSkip_failed cv now hst).2 ⟨hlt, lt_of_le_of_lt (add_le_add_left hle _) hnow⟩
  obtain ⟨err, h1, h2, _⟩ := handleDue_ran cv hr hk hget hs
  exact ⟨r, hr, ⟨err, h1⟩, h2⟩

/-- C3 (amended) at a concrete registry: the task failed once at instant 1000 with a base of one
millisecond and a `NextRun` of 7 is retried at 2001001. -/
theorem C3_failed_task_retried_witness :
    ∃ r, handleDue cvAmd64 schedFailedOnce 2001001 0 = some r ∧
      (∃ err, ("f2", err) ∈ r.invoked) ∧ "f2" ∈ r.executed :=
  C3_failed_task_retried cvAmd64 schedFailedOnce 2001001 0 "f2" failedOnce (by decide) (by decide)
    rfl rfl (by decide) (by decide) (by decide) (by decide)

/-- C4, as stated, fails when the product overflows: a task with the default one-second base that
fails for the 34th time gets `RetryCount = 34`, `LastRun = 11` and a `NextRun` about forty years
before `LastRun`, not `lastRun + 10^9 * 2^34`. -/
theorem C4_counterexample :
    (handleDue cvAmd64 schedPendingAfter33 11 0).map (fun r => (r.invoked,
        (GetTask r.sched "p1").map (fun t => (t.Status, t.RetryCount, t.LastRun, t.NextRun,
          decide (t.NextRun = t.LastRun + t.BackoffBase * 2 ^ t.RetryCount.toNat))))) =
      some ([("p1", some "task error")],
        some (StatusFailed, 34, 11, -1266874889709551605, false)) := by
  rfl

/-- C4 (amended): for every task that `handleDue(now)` executes and whose `RunFunc` returns an
error, with a previous `retryCount` between 0 and 61 and `backoffBase * 2^(retryCount+1)` within
the 64-bit signed range, after the pass the task has status Failed, `retryCount` equal to the
previous one plus 1, `lastRun = now` and `nextRun = lastRun + backoffBase * 2^retryCount` with the
incremented `retryCount`; id, name, interval, maxRetries and backoffBase are unchanged. -/
theorem C4_failure_update {W : Type} (cv : Int → Int) (s : Scheduler W) (now : Time) (w : W)
    (id : String) (t : Task W) (r : TickResult W) (e : String) (hk : KeysNodup s)
    (hpass : handleDue cv s now w = some r) (hget : GetTask s id = some t)
    (hinv : (id, some e) ∈ r.invoked)
    (hrc0 : 0 ≤ t.RetryCount) (hrc1 : t.RetryCount ≤ 61)
    (hlo : -2 ^ 63 ≤ t.BackoffBase * 2 ^ (t.RetryCount + 1).toNat)
    (hhi : t.BackoffBase * 2 ^ (t.RetryCount + 1).toNat < 2 ^ 63) :
    ∃ t2, GetTask r.sched id = some t2 ∧ t2.Status = StatusFailed ∧
      t2.RetryCount = t.RetryCount + 1 ∧ t2.LastRun = now ∧
      t2.NextRun = t2.LastRun + t.BackoffBase * 2 ^ t2.RetryCount.toNat ∧
      t2.ID = t.ID ∧ t2.Name = t.Name ∧ t2.Interval = t.Interval ∧
      t2.MaxRetries = t.MaxRetries ∧ t2.BackoffBase = t.BackoffBase := by
  obtain ⟨_, hset⟩ := handleDue_invoked_result cv hpass hk hget hinv
  have hw : wrap64 (t.RetryCount + 1) = t.RetryCount + 1 :=
    wrap64_of_range (by omega) (by omega)
  have hbo : backoff cv t.BackoffBase (t.RetryCount + 1) =
      t.BackoffBase * 2 ^ (t.RetryCount + 1).toNat :=
    backoff_of_range cv (by omega) (by omega) hlo hhi
  refine ⟨_, hset, ?_⟩
  simp [settle, markRunning, hw, hbo]

/-- C4 (amended) at a concrete registry: the pending task with a base of one millisecond fails at
instant 11 and is left Failed with `RetryCount = 1` and `NextRun = 11 + 2 * 10^6`. -/
theorem C4_failure_update_witness :
    (handleDue cvAmd64 schedPendingFailing 11 0).map (fun r => r.invoked) =
        some [("p2", some "task error")] ∧
      ∃ t2, GetTask (⟨[("p2", settle cvAmd64 11 (markRunning 11 pendingFailing)
            (some "task error")), ("t1", pendingAt100)], none⟩ : Scheduler Nat) "p2" = some t2 ∧
        t2.Status = StatusFailed ∧ t2.RetryCount = pendingFailing.RetryCount + 1 ∧
        t2.LastRun = 11 ∧
        t2.NextRun = t2.LastRun + pendingFailing.BackoffBase * 2 ^ t2.RetryCount.toNat ∧
        t2.ID = pendingFailing.ID ∧ t2.Name = pendingFailing.Name ∧
        t2.Interval = pendingFailing.Interval ∧ t2.MaxRetries = pendingFailing.MaxRetries ∧
        t2.BackoffBase = pendingFailing.BackoffBase :=
  ⟨by decide,
    C4_failure_update cvAmd64 schedPendingFailing 11 0 "p2" pendingFailing
      ⟨["p2"], ⟨[("p2", settle cvAmd64 11 (markRunning 11 pendingFailing) (some "task error")),
        ("t1", pendingAt100)], none⟩, 1, [("p2", some "task error")], []⟩
      "task error" (by decide) rfl rfl (List.mem_cons_self _ _) (by decide) (by decide)
      (by decide) (by decide)⟩

/-- C5: for every task that `handleDue(now)` executes and whose `RunFunc` returns no error, after
the pass the task has status Done, `retryCount = 0`, `lastRun = now` and
`nextRun = now + interval`, whatever its `retryCount` and status were before; id, name, interval,
maxRetries and backoffBase are unchanged. -/
theorem C5_success_update {W : Type} (cv : Int → Int) (s : Scheduler W) (now : Time) (w : W)
    (id : String) (t : Task W) (r : TickResult W) (hk : KeysNodup s)
    (hpass : handleDue cv s now w = some r) (hget : GetTask s id = some t)
    (hinv : (id, none) ∈ r.invoked) :
    ∃ t2, GetTask r.sched id = some t2 ∧ t2.Status = StatusDone ∧ t2.RetryCount = 0 ∧
      t2.LastRun = now ∧ t2.NextRun = now + t.Interval ∧
      t2.ID = t.ID ∧ t2.Name = t.Name ∧ t2.Interval = t.Interval ∧
      t2.MaxRetries = t.MaxRetries ∧ t2.BackoffBase = t.BackoffBase := by
  obtain ⟨_, hset⟩ := handleDue_invoked_result cv hpass hk hget hinv
  refine ⟨_, hset, ?_⟩
  simp [settle, markRunning]

/-- C5 at a concrete registry: a task that was Failed with `RetryCount = 2` succeeds at instant
5000 and is left Done with `RetryCount = 0` and `NextRun = 5000 + 60 s`. -/
theorem C5_success_update_witness :
    (handleDue cvAmd64 schedFailedTwiceOk 5000 0).map (fun r => r.invoked) =
        some [("s1", none)] ∧
      ∃ t2, GetTask (⟨[("s1", settle cvAmd64 5000 (markRunning 5000 failedTwiceOk) none)],
            none⟩ : Scheduler Nat) "s1" = some t2 ∧
        t2.Status = StatusDone ∧ t2.RetryCount = 0 ∧ t2.LastRun = 5000 ∧
        t2.NextRun = 5000 + failedTwiceOk.Interval ∧
        t2.ID = failedTwiceOk.ID ∧ t2.Name = failedTwiceOk.Name ∧
        t2.Interval = failedTwiceOk.Interval ∧ t2.MaxRetries = failedTwiceOk.MaxRetries ∧
        t2.BackoffBase = failedTwiceOk.BackoffBase :=
  ⟨by decide,
    C5_success_update cvAmd64 schedFailedTwiceOk 5000 0 "s1" failedTwiceOk
      ⟨["s1"], ⟨[("s1", settle cvAmd64 5000 (markRunning 5000 failedTwiceOk) none)], none⟩,
        1, [("s1", none)], []⟩
      (by decide) rfl rfl (List.mem_cons_self _ _)⟩

/-- C6: for every registered task with status Failed and `retryCount >= maxRetries`, over every
sequence of ticks at whatever instants, every pass returns, the task's `RunFunc` is never called
and the task is left exactly as it was, so it stays Failed with the same `retryCount`. -/
theorem C6_exhausted_task_inert {W : Type} (cv : Int → Int) (s : Scheduler W)
    (nows : List Time) (w : W) (id : String) (t : Task W) (hk : KeysNodup s)
    (hf : RunFuncsSet s) (hget : GetTask s id = some t) (hst : t.Status = StatusFailed)
    (hrc : t.RetryCount ≥ t.MaxRetries) :
    ∃ fin, runTicks cv s nows w = some fin ∧ GetTask fin.sched id = some t ∧
      ∀ err, (id, err) ∉ fin.invoked := by
  induction nows generalizing s w with
  | nil => exact ⟨_, rfl, hget, by simp⟩
  | cons now rest ih =>
    obtain ⟨r, hr⟩ := handleDue_total cv s now w hf
    have hs : shouldSkip cv now t = true := by
      cases h : shouldSkip cv now t with
      | true => rfl
      | false =>
        have := ((shouldSkip_failed cv now hst).1 h).1
        exact absurd this (not_lt.2 hrc)
    obtain ⟨h1, _, h3⟩ := handleDue_skipped cv hr hk hget hs
    obtain ⟨fin, hfin, hg, hno⟩ :=
      ih r.sched r.world (handleDue_keysNodup cv hr hk) (handleDue_runFuncsSet cv hr hf) h1
    refine ⟨⟨fin.sched, fin.world, r.invoked ++ fin.invoked⟩, ?_, hg, ?_⟩
    · simp [runTicks, Tick, hr, hfin]
    · intro err herr
      rcases List.mem_append.1 herr with h | h
      · exact h3 err h
      · exact hno err h

/-- C6 at a concrete registry: the always-failing task with `MaxRetries = 1` that has failed once
is not called by three later ticks, however late, and is left as it was; counted from its
registration, four ticks call it once, in the first. -/
theorem C6_exhausted_task_inert_witness :
    (∃ fin, runTicks cvAmd64 schedExhausted [2000012, 5000000, 1000000000000] 0 = some fin ∧
      GetTask fin.sched "x1" = some exhaustedTask ∧ ∀ err, ("x1", err) ∉ fin.invoked) ∧
      ((runTicks cvAmd64 schedGivesUp [11] 0).map fun fin =>
        (GetTask fin.sched "x1").map fun a => (a.Status, a.RetryCount, a.LastRun)) =
        some (some (StatusFailed, 1, 11)) ∧
      ((runTicks cvAmd64 schedGivesUp [11, 2000012, 5000000, 1000000000000] 0).map fun fin =>
        fin.invoked.filter fun c => c.1 = "x1") = some [("x1", some "task error")] :=
  ⟨C6_exhausted_task_inert cvAmd64 schedExhausted [2000012, 5000000, 1000000000000] 0 "x1"
    exhaustedTask (by decide) (by decide) rfl rfl (by decide), by decide, by decide⟩

/-- C7, as stated, fails at `t2 = t1 + 2b`: with `b` one millisecond, a first tick at instant 1
leaves the task Failed with `RetryCount = 1`, and a second tick at instant `1 + 2 * 10^6` does
not call the task and leaves it Failed with `RetryCount = 1`, not 2. -/
theorem C7_counterexample :
    ((handleDue cvAmd64 schedScenario 1 0).bind fun r1 =>
        (GetTask r1.sched "fail1").map fun a => (a.Status, a.RetryCount)) =
        some (StatusFailed, 1) ∧
      ((handleDue cvAmd64 schedScenario 1 0).bind fun r1 =>
        (handleDue cvAmd64 r1.sched (1 + 2 * Millisecond) r1.world).map fun r2 => r2.invoked) =
        some [] ∧
      ((handleDue cvAmd64 schedScenario 1 0).bind fun r1 =>
        (handleDue cvAmd64 r1.sched (1 + 2 * Millisecond) r1.world).bind fun r2 =>
          (GetTask r2.sched "fail1").map fun a => (a.Status, a.RetryCount)) =
        some (StatusFailed, 1) := by
  decide

/-- C7 (amended): for a registered task with `maxRetries = 3`, `retryCount = 0` and
`backoffBase = b ≥ -2^61` (so every `b ≥ 0`), whatever its interval, three ticks at `t1`, at which
the task is due, at `t2` strictly after `t1 + 2b` and at `t3` strictly after `t2 + 4b` all return;
if the call of the task's `RunFunc` in the first and in the second tick returns an error and the
call in the third returns none, the task is called in each tick, is Failed with `retryCount = 1`
after the first, Failed with `retryCount = 2` after the second, and Done with `retryCount = 0`
after the third. -/
theorem C7_retry_scenario {W : Type} (cv : Int → Int) (s : Scheduler W) (w : W) (id : String)
    (t : Task W) (b : Int) (t1 t2 t3 : Int) (hk : KeysNodup s) (hf : RunFuncsSet s)
    (hget : GetTask s id = some t) (hmax : t.MaxRetries = 3)
    (hbase : t.BackoffBase = b) (hrc : t.RetryCount = 0) (hb : -2 ^ 61 ≤ b)
    (hdue : shouldSkip cv t1 t = false) (h12 : t1 + 2 * b < t2) (h23 : t2 + 4 * b < t3) :
    ∃ r1 r2 r3, handleDue cv s t1 w = some r1 ∧
      handleDue cv r1.sched t2 r1.world = some r2 ∧
      handleDue cv r2.sched t3 r2.world = some r3 ∧
      ((∀ err, (id, err) ∈ r1.invoked → err ≠ none) →
        ((∃ e, (id, some e) ∈ r1.invoked) ∧
          ∃ a, GetTask r1.sched id = some a ∧ a.Status = StatusFailed ∧ a.RetryCount = 1) ∧
        ((∀ err, (id, err) ∈ r2.invoked → err ≠ none) →
          ((∃ e, (id, some e) ∈ r2.invoked) ∧
            ∃ a, GetTask r2.sched id = some a ∧ a.Status = StatusFailed ∧ a.RetryCount = 2) ∧
          ((∀ err, (id, err) ∈ r3.invoked → err = none) →
            (id, none) ∈ r3.invoked ∧
            ∃ a, GetTask r3.sched id = some a ∧ a.Status = StatusDone ∧ a.RetryCount = 0))) := by
  obtain ⟨r1, hr1⟩ := handleDue_total cv s t1 w hf
  have hk1 := handleDue_keysNodup cv hr1 hk
  have hf1 := handleDue_runFuncsSet cv hr1 hf
  obtain ⟨r2, hr2⟩ := handleDue_total cv r1.sched t2 r1.world hf1
  have hk2 := handleDue_keysNodup cv hr2 hk1
  have hf2 := handleDue_runFuncsSet cv hr2 hf1
  obtain ⟨r3, hr3⟩ := handleDue_total cv r2.sched t3 r2.world hf2
  refine ⟨r1, r2, r3, hr1, hr2, hr3, ?_⟩
  intro H1
  obtain ⟨err1, hin1, _, hg1, _⟩ := handleDue_ran cv hr1 hk hget hdue
  obtain ⟨e1, rfl⟩ := Option.ne_none_iff_exists'.1 (H1 err1 hin1)
  have hw1 : wrap64 1 = 1 := by decide
  have hw2 : wrap64 2 = 2 := by decide
  have hn1 : (1 : Int).toNat = 1 := rfl
  have hn2 : (2 : Int).toNat = 2 := rfl
  have hbo1 : backoff cv b 1 ≤ 2 * b := by
    have h := @backoff_le_of_lower cv b 1 (by norm_num) (by norm_num)
      (by rw [hn1]; omega)
    rw [hn1] at h
    linarith
  have hbo2 : backoff cv b 2 ≤ 4 * b := by
    have h := @backoff_le_of_lower cv b 2 (by norm_num) (by norm_num)
      (by rw [hn2]; omega)
    rw [hn2] at h
    linarith
  refine ⟨⟨⟨e1, hin1⟩, _, hg1, by simp [settle, markRunning], by
    simp [settle, markRunning, hrc, hw1]⟩, ?_⟩
  intro H2
  have hs2 : shouldSkip cv t2 (settle cv t1 (markRunning t1 t) (some e1)) = false := by
    rw [shouldSkip_failed cv t2 (by simp [settle, markRunning])]
    refine ⟨?_, ?_⟩
    · simp [settle, markRunning, hrc, hmax, hw1]
    · have h : (settle cv t1 (markRunning t1 t) (some e1)).LastRun +
          backoff cv (settle cv t1 (markRunning t1 t) (some e1)).BackoffBase
            (settle cv t1 (markRunning t1 t) (some e1)).RetryCount = t1 + backoff cv b 1 := by
        simp [settle, markRunning, hrc, hbase, hw1]
      rw [h]
      linarith
  obtain ⟨err2, hin2, _, hg2, _⟩ := handleDue_ran cv hr2 hk1 hg1 hs2
  obtain ⟨e2, rfl⟩ := Option.ne_none_iff_exists'.1 (H2 err2 hin2)
  refine ⟨⟨⟨e2, hin2⟩, _, hg2, by simp [settle, markRunning], by
    norm_num [settle, markRunning, hrc, hw1, hw2]⟩, ?_⟩
  intro H3
  have hs3 : shouldSkip cv t3
      (settle cv t2 (markRunning t2 (settle cv t1 (markRunning t1 t) (some e1))) (some e2)) =
      false := by
    rw [shouldSkip_failed cv t3 (by simp [settle, markRunning])]
    refine ⟨?_, ?_⟩
    · norm_num [settle, markRunning, hrc, hmax, hw1, hw2]
    · have h : (settle cv t2 (markRunning t2 (settle cv t1 (markRunning t1 t) (some e1)))
            (some e2)).LastRun +
          backoff cv (settle cv t2 (markRunning t2 (settle cv t1 (markRunning t1 t) (some e1)))
            (some e2)).BackoffBase
            (settle cv t2 (markRunning t2 (settle cv t1 (markRunning t1 t) (some e1)))
            (some e2)).RetryCount = t2 + backoff cv b 2 := by
        norm_num [settle, markRunning, hrc, hbase, hw1, hw2]
      rw [h]
      linarith
  obtain ⟨err3, hin3, _, hg3, _⟩ := handleDue_ran cv hr3 hk2 hg2 hs3
  have he3 : err3 = none := H3 err3 hin3
  subst he3
  exact ⟨hin3, _, hg3, by simp [settle, markRunning], by simp [settle, markRunning]⟩

/-- C7 (amended) at the registry of the scenario, with the closure that fails twice and then
succeeds: ticks at instants 1, `1 + 2ms + 1` and `1 + 2ms + 1 + 4ms + 1`; the calls recorded by
the three ticks are an error, an error and none. -/
theorem C7_retry_scenario_witness :
    (∃ r1 r2 r3, handleDue cvAmd64 schedScenario 1 0 = some r1 ∧
      handleDue cvAmd64 r1.sched 2000002 r1.world = some r2 ∧
      handleDue cvAmd64 r2.sched 6000003 r2.world = some r3 ∧
      ((∀ err, ("fail1", err) ∈ r1.invoked → err ≠ none) →
        ((∃ e, ("fail1", some e) ∈ r1.invoked) ∧
          ∃ a, GetTask r1.sched "fail1" = some a ∧ a.Status = StatusFailed ∧
            a.RetryCount = 1) ∧
        ((∀ err, ("fail1", err) ∈ r2.invoked → err ≠ none) →
          ((∃ e, ("fail1", some e) ∈ r2.invoked) ∧
            ∃ a, GetTask r2.sched "fail1" = some a ∧ a.Status = StatusFailed ∧
              a.RetryCount = 2) ∧
          ((∀ err, ("fail1", err) ∈ r3.invoked → err = none) →
            ("fail1", none) ∈ r3.invoked ∧
            ∃ a, GetTask r3.sched "fail1" = some a ∧ a.Status = StatusDone ∧
              a.RetryCount = 0)))) ∧
      ((runTicks cvAmd64 schedScenario [1] 0).map fun fin => fin.invoked) =
        some [("fail1", some "fail attempt")] ∧
      ((runTicks cvAmd64 schedScenario [1, 2000002] 0).map fun fin => fin.invoked) =
        some [("fail1", some "fail attempt"), ("fail1", some "fail attempt")] ∧
      ((runTicks cvAmd64 schedScenario [1, 2000002, 6000003] 0).map fun fin => fin.invoked) =
        some [("fail1", some "fail attempt"), ("fail1", some "fail attempt"),
          ("fail1", none)] :=
  ⟨C7_retry_scenario cvAmd64 schedScenario 0 "fail1" scenarioTask Millisecond 1 2000002 6000003
      (by decide) (by decide) rfl rfl rfl rfl (by decide) (by decide) (by decide) (by decide),
    by decide, by decide, by decide⟩

/-- C8: for every scheduler state and every task whose id is empty or whose `RunFunc` is nil,
`Add` returns an error, the registry is left exactly as it was (so `TaskCount` is unchanged and no
entry is added or replaced), and the passed task is not modified. -/
theorem C8_add_invalid {W : Type} (s : Scheduler W) (task : Task W) (now : Time)
    (h : task.ID = "" ∨ task.RunFunc = none) :
    (Add s task now).err ≠ none ∧ (Add s task now).sched = s ∧
      TaskCount (Add s task now).sched = TaskCount s ∧ (Add s task now).task = task := by
  by_cases hid : task.ID = ""
  · simp [Add, hid]
  · rcases h with h | h
    · exact absurd h hid
    · simp [Add, hid, h]

/-- C8 at a concrete input: adding a task with an empty id to a registry of one task. -/
theorem C8_add_invalid_witness :
    (Add schedPendingAt100 taskNoID 50).err ≠ none ∧
      (Add schedPendingAt100 taskNoID 50).sched = schedPendingAt100 ∧
      TaskCount (Add schedPendingAt100 taskNoID 50).sched = TaskCount schedPendingAt100 ∧
      (Add schedPendingAt100 taskNoID 50).task = taskNoID :=
  C8_add_invalid schedPendingAt100 taskNoID 50 (Or.inl rfl)

/-- C9: for every task with a non-empty id and a non-nil `RunFunc`, `Add` performed at instant
`now` returns no error, and `GetTask(id)` afterwards finds a task with status Pending and
`nextRun = now + interval`, whatever status and `nextRun` the caller had put in the task; name
and interval are as supplied. -/
theorem C9_add_then_get {W : Type} (s : Scheduler W) (task : Task W) (now : Time)
    (hid : task.ID ≠ "") (hrun : task.RunFunc ≠ none) :
    (Add s task now).err = none ∧
      ∃ t2, GetTask (Add s task now).sched task.ID = some t2 ∧ t2.Status = StatusPending ∧
        t2.NextRun = now + task.Interval ∧ t2.Name = task.Name ∧
        t2.Interval = task.Interval := by
  have hrun2 : task.RunFunc.isNone = false := by
    cases h : task.RunFunc with
    | none => exact absurd h hrun
    | some f => rfl
  refine ⟨by simp [Add, hid, hrun2], ?_⟩
  by_cases h1 : task.MaxRetries = 0 <;> by_cases h2 : task.BackoffBase = 0 <;>
    simp [Add, GetTask, hid, hrun2, h1, h2, getEntry_setEntry_same]

/-- C9 at a concrete input: a task built with status Done and `NextRun = 1`, added at instant
500. -/
theorem C9_add_then_get_witness :
    (Add (New Nat) taskGetter 500).err = none ∧
      ∃ t2, GetTask (Add (New Nat) taskGetter 500).sched taskGetter.ID = some t2 ∧
        t2.Status = StatusPending ∧ t2.NextRun = 500 + taskGetter.Interval ∧
        t2.Name = taskGetter.Name ∧ t2.Interval = taskGetter.Interval :=
  C9_add_then_get (New Nat) taskGetter 500 (by decide) (by simp [taskGetter])

/-- C10, as stated, fails for negative values: `Add` accepts a task with `MaxRetries = -1` and
`BackoffBase = -5` and registers it with these values. -/
theorem C10_counterexample :
    (Add (New Nat) taskNegativePolicy 0).err = none ∧
      (GetTask (Add (New Nat) taskNegativePolicy 0).sched "n1").map
        (fun t => (t.MaxRetries, t.BackoffBase)) = some (-1, -5) := by
  decide

/-- C10 (amended): after every successful `Add` the registered task has the supplied `maxRetries`
and `backoffBase`, except that a `maxRetries` supplied as 0 becomes 3 and a `backoffBase` supplied
as 0 becomes 1 second; so both are non-zero, and positive whenever the supplied values are not
negative. The two fields of a registered task are kept by every later `handleDue`, `Remove` of
another id and `Add` of a task with another id. -/
theorem C10_policy_defaults {W : Type} (cv : Int → Int) (s : Scheduler W) (task : Task W)
    (now : Time) (hid : task.ID ≠ "") (hrun : task.RunFunc ≠ none) :
    (Add s task now).err = none ∧
      ∃ t2, GetTask (Add s task now).sched task.ID = some t2 ∧
        t2.MaxRetries = (if task.MaxRetries = 0 then 3 else task.MaxRetries) ∧
        t2.BackoffBase = (if task.BackoffBase = 0 then Second else task.BackoffBase) ∧
        t2.MaxRetries ≠ 0 ∧ t2.BackoffBase ≠ 0 ∧
        (0 ≤ task.MaxRetries → 0 < t2.MaxRetries) ∧
        (0 ≤ task.BackoffBase → 0 < t2.BackoffBase) ∧
        ∀ (s2 : Scheduler W) (t3 : Task W), KeysNodup s2 → GetTask s2 task.ID = some t3 →
          (∀ now2 w r, handleDue cv s2 now2 w = some r →
            ∃ t4, GetTask r.sched task.ID = some t4 ∧ t4.MaxRetries = t3.MaxRetries ∧
              t4.BackoffBase = t3.BackoffBase) ∧
          (∀ id2, id2 ≠ task.ID → GetTask (Remove s2 id2).2 task.ID = some t3) ∧
          (∀ other now2, other.ID ≠ task.ID →
            GetTask (Add s2 other now2).sched task.ID = some t3) := by
  have hrun2 : task.RunFunc.isNone = false := by
    cases h : task.RunFunc with
    | none => exact absurd h hrun
    | some f => rfl
  refine ⟨by simp [Add, hid, hrun2], ?_⟩
  have hframe : ∀ (s2 : Scheduler W) (t3 : Task W), KeysNodup s2 →
      GetTask s2 task.ID = some t3 →
      (∀ now2 w r, handleDue cv s2 now2 w = some r →
        ∃ t4, GetTask r.sched task.ID = some t4 ∧ t4.MaxRetries = t3.MaxRetries ∧
          t4.BackoffBase = t3.BackoffBase) ∧
      (∀ id2, id2 ≠ task.ID → GetTask (Remove s2 id2).2 task.ID = some t3) ∧
      (∀ other now2, other.ID ≠ task.ID →
        GetTask (Add s2 other now2).sched task.ID = some t3) := by
    intro s2 t3 hk hget
    refine ⟨?_, ?_, ?_⟩
    · intro now2 w r hr
      cases hs : shouldSkip cv now2 t3 with
      | true => exact ⟨t3, (handleDue_skipped cv hr hk hget hs).1, rfl, rfl⟩
      | false =>
        obtain ⟨err, _, _, h3, _⟩ := handleDue_ran cv hr hk hget hs
        refine ⟨_, h3, ?_, ?_⟩ <;> cases err <;> simp [settle, markRunning]
    · intro id2 hne
      unfold Remove GetTask
      by_cases hex : (getEntry s2.tasks id2).isSome = true
      · simp only [hex, if_true]
        rw [getEntry_deleteEntry_other s2.tasks (Ne.symm hne)]
        exact hget
      · simp only [hex]
        exact hget
    · intro other now2 hne
      unfold Add GetTask
      by_cases h1 : other.ID = ""
      · simp only [h1, if_true]
        exact hget
      · by_cases h2 : other.RunFunc.isNone = true
        · simp only [h1, h2, if_true, if_false]
          exact hget
        · simp only [h1, h2, if_false]
          have hne2 : task.ID ≠ other.ID := Ne.symm hne
          by_cases h3 : other.MaxRetries = 0 <;> by_cases h4 : other.BackoffBase = 0 <;>
            simp [h3, h4, getEntry_setEntry_other _ _ hne2] <;> exact hget
  have hget : GetTask (Add s task now).sched task.ID = some
      { task with
        MaxRetries := if task.MaxRetries = 0 then 3 else task.MaxRetries
        BackoffBase := if task.BackoffBase = 0 then Second else task.BackoffBase
        Status := StatusPending
        NextRun := now + task.Interval } := by
    by_cases h1 : task.MaxRetries = 0 <;> by_cases h2 : task.BackoffBase = 0 <;>
      simp [Add, GetTask, hid, hrun2, h1, h2, getEntry_setEntry_same]
  refine ⟨_, hget, rfl, rfl, ?_, ?_, ?_, ?_, hframe⟩
  · show (if task.MaxRetries = 0 then 3 else task.MaxRetries) ≠ 0
    split_ifs with h
    · norm_num
    · exact h
  · show (if task.BackoffBase = 0 then Second else task.BackoffBase) ≠ 0
    split_ifs with h
    · norm_num [Second]
    · exact h
  · intro h0
    show 0 < (if task.MaxRetries = 0 then 3 else task.MaxRetries)
    split_ifs with h
    · norm_num
    · exact lt_of_le_of_ne h0 (Ne.symm h)
  · intro h0
    show 0 < (if task.BackoffBase = 0 then Second else task.BackoffBase)
    split_ifs with h
    · norm_num [Second]
    · exact lt_of_le_of_ne h0 (Ne.symm h)

/-- C10 (amended) at a concrete input: the task built with the retry policy left unset is
registered with `MaxRetries = 3` and a `BackoffBase` of one second. -/
theorem C10_policy_defaults_witness :
    (Add (New Nat) taskGetter 500).err = none ∧
      ∃ t2, GetTask (Add (New Nat) taskGetter 500).sched taskGetter.ID = some t2 ∧
        t2.MaxRetries = (if taskGetter.MaxRetries = 0 then 3 else taskGetter.MaxRetries) ∧
        t2.BackoffBase =
          (if taskGetter.BackoffBase = 0 then Second else taskGetter.BackoffBase) ∧
        t2.MaxRetries ≠ 0 ∧ t2.BackoffBase ≠ 0 ∧
        (0 ≤ taskGetter.MaxRetries → 0 < t2.MaxRetries) ∧
        (0 ≤ taskGetter.BackoffBase → 0 < t2.BackoffBase) ∧
        ∀ (s2 : Scheduler Nat) (t3 : Task Nat), KeysNodup s2 →
          GetTask s2 taskGetter.ID = some t3 →
          (∀ now2 w r, handleDue cvAmd64 s2 now2 w = some r →
            ∃ t4, GetTask r.sched taskGetter.ID = some t4 ∧ t4.MaxRetries = t3.MaxRetries ∧
              t4.BackoffBase = t3.BackoffBase) ∧
          (∀ id2, id2 ≠ taskGetter.ID → GetTask (Remove s2 id2).2 taskGetter.ID = some t3) ∧
          (∀ other now2, other.ID ≠ taskGetter.ID →
            GetTask (Add s2 other now2).sched taskGetter.ID = some t3) :=
  C10_policy_defaults cvAmd64 (New Nat) taskGetter 500 (by decide) (by simp [taskGetter])

/-! ## Further lemmas on the registry -/

section registry2
variable {W : Type}

theorem setEntry_keys (l : List (String × Task W)) (id : String) (t : Task W) :
    (setEntry l id t).map Prod.fst =
      if id ∈ l.map Prod.fst then l.map Prod.fst else l.map Prod.fst ++ [id] := by
  induction l with
  | nil => simp [setEntry]
  | cons e rest ih =>
    obtain ⟨k, v⟩ := e
    by_cases hk : k = id
    · subst hk
      simp [setEntry]
    · have hk2 : ¬ id = k := fun h => hk h.symm
      by_cases hm : id ∈ rest.map Prod.fst
      · simp only [setEntry, hk, if_false, List.map_cons, ih, hm, if_true, List.mem_cons,
          or_true]
      · simp only [setEntry, hk, if_false, List.map_cons, ih, hm, List.mem_cons, hk2,
          or_self, List.cons_append]

theorem setEntry_length (l : List (String × Task W)) (id : String) (t : Task W) :
    (setEntry l id t).length =
      if (getEntry l id).isSome then l.length else l.length + 1 := by
  induction l with
  | nil => simp [setEntry, getEntry]
  | cons e rest ih =>
    obtain ⟨k, v⟩ := e
    by_cases hk : k = id
    · simp [setEntry, getEntry, hk]
    · simp only [setEntry, getEntry, hk, if_false, List.length_cons, ih]
      split_ifs <;> rfl

theorem setEntry_nodup (l : List (String × Task W)) (id : String) (t : Task W)
    (h : (l.map Prod.fst).Nodup) : ((setEntry l id t).map Prod.fst).Nodup := by
  rw [setEntry_keys]
  split_ifs with hm
  · exact h
  · exact List.Nodup.append h (List.nodup_singleton id) (by
      intro a ha hb
      rw [List.mem_singleton] at hb
      exact hm (hb ▸ ha))

theorem getEntry_deleteEntry_same (l : List (String × Task W)) (id : String) :
    getEntry (deleteEntry l id) id = none := by
  induction l with
  | nil => simp [deleteEntry, getEntry]
  | cons e rest ih =>
    obtain ⟨k, v⟩ := e
    by_cases hk : k = id
    · simp [deleteEntry, hk, ih]
    · simp [deleteEntry, getEntry, hk, ih]

theorem deleteEntry_of_absent (l : List (String × Task W)) (id : String)
    (h : id ∉ l.map Prod.fst) : deleteEntry l id = l := by
  induction l with
  | nil => simp [deleteEntry]
  | cons e rest ih =>
    obtain ⟨k, v⟩ := e
    simp only [List.map_cons, List.mem_cons, not_or] at h
    have hk : ¬ k = id := fun hh => h.1 hh.symm
    simp [deleteEntry, hk, ih h.2]

theorem deleteEntry_length (l : List (String × Task W)) (id : String)
    (hnd : (l.map Prod.fst).Nodup) (h : id ∈ l.map Prod.fst) :
    (deleteEntry l id).length + 1 = l.length := by
  induction l with
  | nil => simp at h
  | cons e rest ih =>
    obtain ⟨k, v⟩ := e
    simp only [List.map_cons, List.nodup_cons] at hnd
    by_cases hk : k = id
    · subst hk
      simp [deleteEntry, deleteEntry_of_absent rest k hnd.1]
    · have hm : id ∈ rest.map Prod.fst := by
        rcases List.mem_cons.1 h with h1 | h1
        · exact absurd h1.symm hk
        · exact h1
      simp [deleteEntry, hk, ih hnd.2 hm]

theorem deleteEntry_sublist (l : List (String × Task W)) (id : String) :
    List.Sublist ((deleteEntry l id).map Prod.fst) (l.map Prod.fst) := by
  induction l with
  | nil => simp [deleteEntry]
  | cons e rest ih =>
    obtain ⟨k, v⟩ := e
    by_cases hk : k = id
    · simp only [deleteEntry, hk, if_true, List.map_cons]
      exact List.Sublist.cons _ ih
    · simp only [deleteEntry, hk, if_false, List.map_cons]
      exact List.Sublist.cons₂ _ ih

theorem getEntry_isSome_iff {l : List (String × Task W)} {id : String} :
    (getEntry l id).isSome = true ↔ id ∈ l.map Prod.fst := by
  rw [← not_iff_not, ← getEntry_none_iff]
  cases getEntry l id <;> simp

end registry2


/-- The value `Add` stores for a valid task: the supplied fields with the defaults applied,
status Pending and `NextRun = now + Interval`. -/
theorem Add_valid {W : Type} (s : Scheduler W) (task : Task W) (now : Time)
    (hid : task.ID ≠ "") (hrun : task.RunFunc ≠ none) :
    (Add s task now).err = none ∧
      (Add s task now).task.ID = task.ID ∧
      (Add s task now).sched =
        { s with tasks := setEntry s.tasks task.ID (Add s task now).task } := by
  have hrun2 : task.RunFunc.isNone = false := by
    cases h : task.RunFunc with
    | none => exact absurd h hrun
    | some f => rfl
  by_cases h1 : task.MaxRetries = 0 <;> by_cases h2 : task.BackoffBase = 0 <;>
    simp [Add, hid, hrun2, h1, h2]

/-- C11: `Add` of a valid task returns no error and stores the task, as `Add` completed it, under
its id, so that `GetTask(id)` returns it; every entry under another id is unchanged; `TaskCount`
is unchanged when the id was registered and grows by exactly 1 when it was not; unique keys stay
unique. -/
theorem C11_add_replaces_or_inserts {W : Type} (s : Scheduler W) (task : Task W) (now : Time)
    (hid : task.ID ≠ "") (hrun : task.RunFunc ≠ none) :
    (Add s task now).err = none ∧
      GetTask (Add s task now).sched task.ID = some (Add s task now).task ∧
      (∀ id2, id2 ≠ task.ID → GetTask (Add s task now).sched id2 = GetTask s id2) ∧
      ((GetTask s task.ID).isSome = true →
        TaskCount (Add s task now).sched = TaskCount s) ∧
      (GetTask s task.ID = none → TaskCount (Add s task now).sched = TaskCount s + 1) ∧
      (KeysNodup s → KeysNodup (Add s task now).sched) := by
  obtain ⟨herr, _, hs⟩ := Add_valid s task now hid hrun
  refine ⟨herr, ?_, ?_, ?_, ?_, ?_⟩
  · rw [hs]
    exact getEntry_setEntry_same _ _ _
  · intro id2 hne
    rw [hs]
    exact getEntry_setEntry_other _ _ hne
  · intro h
    have h2 : (getEntry s.tasks task.ID).isSome = true := h
    rw [hs]
    simp only [TaskCount, setEntry_length]
    rw [if_pos h2]
  · intro h
    rw [hs]
    simp only [TaskCount, setEntry_length]
    have : (getEntry s.tasks task.ID).isSome = false := by
      unfold GetTask at h
      rw [h]
      rfl
    rw [this]
    rfl
  · intro hk
    rw [hs]
    exact setEntry_nodup _ _ _ hk

/-- C11 at a concrete registry of five tasks: a new task with the registered id `t1`. -/
theorem C11_add_replaces_or_inserts_witness :
    ((GetTask schedMixed taskReplacement.ID).isSome = true ∧ KeysNodup schedMixed) ∧
      (Add schedMixed taskReplacement 40).err = none ∧
      GetTask (Add schedMixed taskReplacement 40).sched taskReplacement.ID =
        some (Add schedMixed taskReplacement 40).task ∧
      (∀ id2, id2 ≠ taskReplacement.ID →
        GetTask (Add schedMixed taskReplacement 40).sched id2 = GetTask schedMixed id2) ∧
      ((GetTask schedMixed taskReplacement.ID).isSome = true →
        TaskCount (Add schedMixed taskReplacement 40).sched = TaskCount schedMixed) ∧
      (GetTask schedMixed taskReplacement.ID = none →
        TaskCount (Add schedMixed taskReplacement 40).sched = TaskCount schedMixed + 1) ∧
      (KeysNodup schedMixed → KeysNodup (Add schedMixed taskReplacement 40).sched) :=
  ⟨⟨by decide, by decide⟩,
    C11_add_replaces_or_inserts schedMixed taskReplacement 40 (by decide)
      (by simp [taskReplacement])⟩

/-- C12: in a registry with unique keys, `Remove(id)` of a registered id returns true,
`GetTask(id)` afterwards finds nothing, `TaskCount` decreases by 1, every other entry is
unchanged and a second `Remove(id)` returns false; `Remove(id)` of an id that is not registered
returns false and leaves the registry as it was. -/
theorem C12_remove {W : Type} (s : Scheduler W) (id : String) (hk : KeysNodup s) :
    ((GetTask s id).isSome = true →
      (Remove s id).1 = true ∧ GetTask (Remove s id).2 id = none ∧
        TaskCount (Remove s id).2 + 1 = TaskCount s ∧
        (∀ id2, id2 ≠ id → GetTask (Remove s id).2 id2 = GetTask s id2) ∧
        (Remove (Remove s id).2 id).1 = false ∧ KeysNodup (Remove s id).2) ∧
      (GetTask s id = none → (Remove s id).1 = false ∧ (Remove s id).2 = s) := by
  constructor
  · intro h
    have h2 : (getEntry s.tasks id).isSome = true := h
    have hr : Remove s id = (true, { s with tasks := deleteEntry s.tasks id }) := by
      simp [Remove, h2]
    rw [hr]
    refine ⟨rfl, getEntry_deleteEntry_same _ _, ?_, ?_, ?_, ?_⟩
    · exact deleteEntry_length _ _ hk (getEntry_isSome_iff.1 h2)
    · intro id2 hne
      exact getEntry_deleteEntry_other _ hne
    · simp [Remove, getEntry_deleteEntry_same]
    · exact List.Nodup.sublist (deleteEntry_sublist _ _) hk
  · intro h
    have h2 : (getEntry s.tasks id).isSome = false := by
      unfold GetTask at h
      rw [h]
      rfl
    simp [Remove, h2]

/-- C12 at a concrete registry of five tasks, removing the registered id `d1`. -/
theorem C12_remove_witness :
    (KeysNodup schedMixed ∧ (GetTask schedMixed "d1").isSome = true) ∧
    ((GetTask schedMixed "d1").isSome = true →
      (Remove schedMixed "d1").1 = true ∧ GetTask (Remove schedMixed "d1").2 "d1" = none ∧
        TaskCount (Remove schedMixed "d1").2 + 1 = TaskCount schedMixed ∧
        (∀ id2, id2 ≠ "d1" → GetTask (Remove schedMixed "d1").2 id2 = GetTask schedMixed id2) ∧
        (Remove (Remove schedMixed "d1").2 "d1").1 = false ∧
        KeysNodup (Remove schedMixed "d1").2) ∧
      (GetTask schedMixed "d1" = none →
        (Remove schedMixed "d1").1 = false ∧ (Remove schedMixed "d1").2 = schedMixed) :=
  ⟨⟨by decide, by decide⟩, C12_remove schedMixed "d1" (by decide)⟩

section pass2
variable {W : Type} (cv : Int → Int)

theorem handleDue_executed {s : Scheduler W} {now : Time} {w : W} {r : TickResult W}
    (h : handleDue cv s now w = some r) :
    r.executed = (s.tasks.filter fun e => !shouldSkip cv now e.2).map Prod.fst ∧
      r.invoked.map Prod.fst = r.executed := by
  obtain ⟨o, ho, rfl⟩ := handleDue_eq_some cv h
  exact ⟨handleDueLoop_executed cv s.onError now ho,
    handleDueLoop_invoked_keys cv s.onError now ho⟩

theorem handleDue_executed_nodup {s : Scheduler W} {now : Time} {w : W} {r : TickResult W}
    (h : handleDue cv s now w = some r) (hk : KeysNodup s) : r.executed.Nodup := by
  rw [(handleDue_executed cv h).1]
  exact List.Nodup.sublist (List.Sublist.map _ (List.filter_sublist _)) hk

/-- With an observer set, the observer calls of the loop are, in order, the calls of `RunFunc`
that returned an error, each with the entry as `settle` left it, which is the entry afterwards. -/
theorem handleDueLoop_observed (hd : ErrFn W) (now : Time) {l : List (String × Task W)} {w : W}
    {o : LoopOut W} (h : handleDueLoop cv (some hd) now l w = some o) :
    List.Forall₂
      (fun (obs : Task W × String) (call : String × Option String) =>
        ∃ t0, (call.1, t0) ∈ l ∧ call.2 = some obs.2 ∧
          obs.1 = settle cv now (markRunning now t0) (some obs.2) ∧ (call.1, obs.1) ∈ o.tasks)
      o.observed (o.invoked.filter fun c => c.2.isSome) := by
  induction l generalizing w o with
  | nil =>
    simp [handleDueLoop] at h
    subst h
    exact List.Forall₂.nil
  | cons e rest ih =>
    obtain ⟨k, v⟩ := e
    have hmono : ∀ (o2 : LoopOut W) (w2 : W) (v2 : Task W),
        handleDueLoop cv (some hd) now rest w2 = some o2 →
        List.Forall₂
          (fun (obs : Task W × String) (call : String × Option String) =>
            ∃ t0, (call.1, t0) ∈ (k, v) :: rest ∧ call.2 = some obs.2 ∧
              obs.1 = settle cv now (markRunning now t0) (some obs.2) ∧
              (call.1, obs.1) ∈ (k, v2) :: o2.tasks)
          o2.observed (o2.invoked.filter fun c => c.2.isSome) := by
      intro o2 w2 v2 ho2
      refine List.Forall₂.imp ?_ (ih ho2)
      rintro obs call ⟨t0, h1, h2, h3, h4⟩
      exact ⟨t0, List.mem_cons_of_mem _ h1, h2, h3, List.mem_cons_of_mem _ h4⟩
    rcases handleDueLoop_cons_cases cv (some hd) now h with
      ⟨_, o2, ho2, rfl⟩ | ⟨_, f, w2, o2, _, ho2, rfl⟩
    · exact hmono o2 w v ho2
    · cases hfw : (f w).1 with
      | none =>
        simp only [onErrorCalls, hfw, List.nil_append]
        rw [List.filter_cons_of_neg (by simp)]
        exact hmono o2 w2 _ ho2
      | some e =>
        simp only [onErrorCalls, hfw, List.singleton_append]
        rw [List.filter_cons_of_pos (by simp)]
        exact List.Forall₂.cons
          ⟨v, List.mem_cons_self _ _, rfl, rfl, List.mem_cons_self _ _⟩ (hmono o2 w2 _ ho2)

theorem PendingCount_foldl (l : List (String × Task W)) (n : Nat) :
    l.foldl
        (fun count e =>
          if e.2.Status = StatusPending ∨ e.2.Status = StatusFailed then count + 1 else count) n =
      n + l.countP fun e => decide (e.2.Status = StatusPending ∨ e.2.Status = StatusFailed) := by
  induction l generalizing n with
  | nil => simp
  | cons e rest ih =>
    by_cases h : e.2.Status = StatusPending ∨ e.2.Status = StatusFailed
    · simp only [List.foldl_cons, h, if_true, ih]
      rw [List.countP_cons_of_pos _ _ (by simpa using h)]
      omega
    · simp only [List.foldl_cons, h, if_false, ih]
      rw [List.countP_cons_of_neg _ _ (by simpa using h)]

end pass2

/-- C13: in a registry with unique keys and non-nil `RunFunc`s, `handleDue(now)` returns a list
without duplicates that contains an id exactly when the `RunFunc` registered under it was called
in the pass, whatever the call returned, the ids of the calls being the list itself; and for every
registered task in status Pending or Done whose `NextRun` is strictly before `now`, the id occurs
exactly once in the list and exactly once among the calls. -/
theorem C13_executed_list {W : Type} (cv : Int → Int) (s : Scheduler W) (now : Time) (w : W)
    (hk : KeysNodup s) (hf : RunFuncsSet s) :
    ∃ r, handleDue cv s now w = some r ∧ r.executed.Nodup ∧
      r.invoked.map Prod.fst = r.executed ∧
      (∀ id, id ∈ r.executed ↔ ∃ err, (id, err) ∈ r.invoked) ∧
      ∀ id t, GetTask s id = some t →
        t.Status = StatusPending ∨ t.Status = StatusDone → t.NextRun < now →
        r.executed.count id = 1 ∧ (r.invoked.map Prod.fst).count id = 1 := by
  obtain ⟨r, hr⟩ := handleDue_total cv s now w hf
  have hnd := handleDue_executed_nodup cv hr hk
  have hkeys := (handleDue_executed cv hr).2
  refine ⟨r, hr, hnd, hkeys, ?_, ?_⟩
  · intro id
    rw [← hkeys]
    constructor
    · intro h
      obtain ⟨c, hc, hid⟩ := List.mem_map.1 h
      exact ⟨c.2, by rw [← hid]; exact hc⟩
    · rintro ⟨err, h⟩
      exact List.mem_map_of_mem Prod.fst h
  · intro id t hget hst hnow
    have hs : shouldSkip cv now t = false := (shouldSkip_pending_done cv now hst).2 hnow
    obtain ⟨_, _, hex, _⟩ := handleDue_ran cv hr hk hget hs
    have h1 : r.executed.count id = 1 := List.count_eq_one_of_mem hnd hex
    exact ⟨h1, by rw [hkeys]; exact h1⟩

/-- C13 at the concrete registry of five tasks, at instant 200: the failing `p2` and the
succeeding `t1` are listed, once each. -/
theorem C13_executed_list_witness :
    (∃ r, handleDue cvAmd64 schedMixed 200 0 = some r ∧ r.executed.Nodup ∧
      r.invoked.map Prod.fst = r.executed ∧
      (∀ id, id ∈ r.executed ↔ ∃ err, (id, err) ∈ r.invoked) ∧
      ∀ id t, GetTask schedMixed id = some t →
        t.Status = StatusPending ∨ t.Status = StatusDone → t.NextRun < 200 →
        r.executed.count id = 1 ∧ (r.invoked.map Prod.fst).count id = 1) ∧
      ((handleDue cvAmd64 schedMixed 200 0).map fun r => r.executed) = some ["p2", "t1"] ∧
      ((handleDue cvAmd64 schedMixed 200 0).map fun r => r.invoked) =
        some [("p2", some "task error"), ("t1", none)] :=
  ⟨C13_executed_list cvAmd64 schedMixed 200 0 (by decide) (by decide), by decide, by decide⟩

/-- C14: `PendingCount()` is the number of registered tasks whose status is Pending or Failed,
whatever their retry counters and `NextRun`; tasks that are Done or Running are not counted. The
method only reads the registry. -/
theorem C14_pending_count {W : Type} (s : Scheduler W) :
    PendingCount s =
        s.tasks.countP (fun e => decide (e.2.Status = StatusPending ∨ e.2.Status = StatusFailed)) ∧
      PendingCount s =
        (s.tasks.filter fun e =>
          decide (e.2.Status ≠ StatusDone ∧ e.2.Status ≠ StatusRunning)).length := by
  have h1 : PendingCount s =
      s.tasks.countP (fun e => decide (e.2.Status = StatusPending ∨ e.2.Status = StatusFailed)) := by
    unfold PendingCount
    rw [PendingCount_foldl]
    omega
  refine ⟨h1, ?_⟩
  rw [h1, List.countP_eq_length_filter]
  congr 1
  apply List.filter_congr
  intro e _
  cases e.2.Status <;> simp

section observer
variable {W : Type} (cv : Int → Int)

/-- The step analysis of the loop with the world in which the rest of the loop runs: after a
call, it is the world left by the guarded call of the observer. -/
theorem handleDueLoop_cons_cases_world (onError : Option (ErrFn W)) (now : Time) {id : String}
    {task : Task W} {rest : List (String × Task W)} {w : W} {o : LoopOut W}
    (h : handleDueLoop cv onError now ((id, task) :: rest) w = some o) :
    (shouldSkip cv now task = true ∧ ∃ o2, handleDueLoop cv onError now rest w = some o2 ∧
        o = { o2 with tasks := (id, task) :: o2.tasks }) ∨
    (shouldSkip cv now task = false ∧ ∃ f o2, task.RunFunc = some f ∧
        handleDueLoop cv onError now rest
          (callOnError onError (settle cv now (markRunning now task) (f w).1) (f w).1 (f w).2) =
          some o2 ∧
        o = { tasks := (id, settle cv now (markRunning now task) (f w).1) :: o2.tasks
              world := o2.world
              executed := id :: o2.executed
              invoked := (id, (f w).1) :: o2.invoked
              observed :=
                onErrorCalls onError (settle cv now (markRunning now task) (f w).1) (f w).1 ++
                  o2.observed }) := by
  cases hs : shouldSkip cv now task with
  | true =>
    left
    rw [handleDueLoop_cons_skip cv onError now id task rest w hs] at h
    obtain ⟨o2, ho2, heq⟩ := Option.map_eq_some'.1 h
    exact ⟨rfl, o2, ho2, heq.symm⟩
  | false =>
    right
    cases hf : task.RunFunc with
    | none =>
      rw [handleDueLoop_cons_nil cv onError now id task rest w hs hf] at h
      exact absurd h (by simp)
    | some f =>
      rw [handleDueLoop_cons_run cv onError now id task rest w f hs hf] at h
      obtain ⟨o2, ho2, heq⟩ := Option.map_eq_some'.1 h
      exact ⟨rfl, f, o2, rfl, ho2, heq.symm⟩

/-- With an observer set, the world after the loop is the replay of the returned list: every
listed id is one call of its `RunFunc`, followed, exactly when the call returned an error, by one
call of the observer with the entry afterwards and that error. -/
theorem handleDueLoop_world (hd : ErrFn W) (now : Time) {l : List (String × Task W)} {w : W}
    {o : LoopOut W} (h : handleDueLoop cv (some hd) now l w = some o)
    (before after : List (String × Task W))
    (hb : ∀ id t, (id, t) ∈ l → getEntry before id = some t)
    (ha : ∀ id t, (id, t) ∈ o.tasks → getEntry after id = some t) :
    o.world = replayPass before after hd o.executed w := by
  induction l generalizing w o with
  | nil =>
    simp [handleDueLoop] at h
    subst h
    rfl
  | cons x rest ih =>
    obtain ⟨k, v⟩ := x
    have hb2 : ∀ id t, (id, t) ∈ rest → getEntry before id = some t :=
      fun id t hm => hb id t (List.mem_cons_of_mem _ hm)
    rcases handleDueLoop_cons_cases_world cv (some hd) now h with
      ⟨_, o2, ho2, rfl⟩ | ⟨_, f, o2, hfv, ho2, rfl⟩
    · have ha2 : ∀ id t, (id, t) ∈ o2.tasks → getEntry after id = some t :=
        fun id t hm => ha id t (List.mem_cons_of_mem _ hm)
      have hrest := ih ho2 hb2 ha2
      exact hrest
    · have hbk : getEntry before k = some v := hb k v (List.mem_cons_self _ _)
      have hak : getEntry after k = some (settle cv now (markRunning now v) (f w).1) :=
        ha k _ (List.mem_cons_self _ _)
      have ha2 : ∀ id t, (id, t) ∈ o2.tasks → getEntry after id = some t :=
        fun id t hm => ha id t (List.mem_cons_of_mem _ hm)
      have hrest := ih ho2 hb2 ha2
      show o2.world = replayPass before after hd (k :: o2.executed) w
      rw [hrest]
      cases hfw : (f w).1 with
      | none => simp [replayPass, hbk, hfv, hak, hfw, callOnError]
      | some e => simp [replayPass, hbk, hfv, hak, hfw, callOnError]

end observer

/-- C15: in a registry with unique keys, non-nil `RunFunc`s and an error observer set,
`handleDue(now)` returns and calls the observer once for each call of a `RunFunc` that returned an
error, in the same order and for no other task, with that error and with the task as the pass
leaves it: Failed, with the incremented `RetryCount`; so the number of observer calls is the
number of failed executions. The world after the pass is the replay of the returned list: one
call of the `RunFunc` per listed id, followed, exactly when the call returned an error, by one
call of the observer on that task and that error. -/
theorem C15_observer_calls {W : Type} (cv : Int → Int) (s : Scheduler W) (now : Time) (w : W)
    (hd : ErrFn W) (hk : KeysNodup s) (hf : RunFuncsSet s) (hobs : s.onError = some hd) :
    ∃ r, handleDue cv s now w = some r ∧
      List.Forall₂
        (fun (obs : Task W × String) (call : String × Option String) =>
          ∃ t0, GetTask s call.1 = some t0 ∧ call.2 = some obs.2 ∧
            GetTask r.sched call.1 = some obs.1 ∧ obs.1.Status = StatusFailed ∧
            obs.1.RetryCount = wrap64 (t0.RetryCount + 1))
        r.observed (r.invoked.filter fun c => c.2.isSome) ∧
      r.observed.length = (r.invoked.filter fun c => c.2.isSome).length ∧
      r.world = replayPass s.tasks r.sched.tasks hd r.executed w := by
  obtain ⟨r, hr⟩ := handleDue_total cv s now w hf
  have hk2 := handleDue_keysNodup cv hr hk
  obtain ⟨o, ho, rfl⟩ := handleDue_eq_some cv hr
  rw [hobs] at ho
  have hobsd := handleDueLoop_observed cv hd now ho
  have hall : List.Forall₂
      (fun (obs : Task W × String) (call : String × Option String) =>
        ∃ t0, GetTask s call.1 = some t0 ∧ call.2 = some obs.2 ∧
          getEntry o.tasks call.1 = some obs.1 ∧ obs.1.Status = StatusFailed ∧
          obs.1.RetryCount = wrap64 (t0.RetryCount + 1))
      o.observed (o.invoked.filter fun c => c.2.isSome) := by
    refine List.Forall₂.imp ?_ hobsd
    rintro obs call ⟨t0, h1, h2, h3, h4⟩
    refine ⟨t0, getEntry_of_mem hk h1, h2, getEntry_of_mem hk2 h4, ?_, ?_⟩
    · rw [h3]
      rfl
    · rw [h3]
      rfl
  have hworld : o.world = replayPass s.tasks o.tasks hd o.executed w :=
    handleDueLoop_world cv hd now ho s.tasks o.tasks
      (fun id t hm => getEntry_of_mem hk hm) (fun id t hm => getEntry_of_mem hk2 hm)
  exact ⟨_, hr, hall, hall.length_eq, hworld⟩

/-- C15 at a concrete registry of five tasks whose observer logs what it receives, at instant
200: the calls of `a` and `c` fail and the log holds exactly these two calls, in this order, each
with the task already Failed, its incremented `RetryCount` and the error its `RunFunc` returned;
the succeeding `b` and the skipped `d` and `e` are not in the log. -/
theorem C15_observer_calls_witness :
    (∃ r, handleDue cvAmd64 schedLogged 200 [] = some r ∧
      List.Forall₂
        (fun (obs : Task ObserverLog × String) (call : String × Option String) =>
          ∃ t0, GetTask schedLogged call.1 = some t0 ∧ call.2 = some obs.2 ∧
            GetTask r.sched call.1 = some obs.1 ∧ obs.1.Status = StatusFailed ∧
            obs.1.RetryCount = wrap64 (t0.RetryCount + 1))
        r.observed (r.invoked.filter fun c => c.2.isSome) ∧
      r.observed.length = (r.invoked.filter fun c => c.2.isSome).length ∧
      r.world = replayPass schedLogged.tasks r.sched.tasks loggingObserver r.executed []) ∧
      ((handleDue cvAmd64 schedLogged 200 []).map fun r => r.invoked) =
        some [("a", some "disk full"), ("b", none), ("c", some "timeout")] ∧
      ((handleDue cvAmd64 schedLogged 200 []).map fun r => r.world) =
        some [("a", StatusFailed, 1, "disk full"), ("c", StatusFailed, 2, "timeout")] :=
  ⟨C15_observer_calls cvAmd64 schedLogged 200 [] loggingObserver (by decide) (by decide) rfl,
    by decide, by decide⟩

/-- C16: in a registry with unique keys and non-nil `RunFunc`s, `handleDue(now)` returns, keeps
the keys of the registry, their number and the observer, and every registered task whose `RunFunc`
is not called in the pass is afterwards exactly the task it was. -/
theorem C16_frame {W : Type} (cv : Int → Int) (s : Scheduler W) (now : Time) (w : W)
    (hk : KeysNodup s) (hf : RunFuncsSet s) :
    ∃ r, handleDue cv s now w = some r ∧
      r.sched.tasks.map Prod.fst = s.tasks.map Prod.fst ∧
      TaskCount r.sched = TaskCount s ∧ r.sched.onError = s.onError ∧
      (∀ id, (GetTask r.sched id).isSome = (GetTask s id).isSome) ∧
      ∀ id t, GetTask s id = some t → (∀ err, (id, err) ∉ r.invoked) →
        GetTask r.sched id = some t := by
  obtain ⟨r, hr⟩ := handleDue_total cv s now w hf
  have hkeys := handleDue_keys cv hr
  refine ⟨r, hr, hkeys, ?_, ?_, ?_, ?_⟩
  · have := congrArg List.length hkeys
    simpa [TaskCount] using this
  · obtain ⟨o, _, rfl⟩ := handleDue_eq_some cv hr
    rfl
  · intro id
    have h1 := @getEntry_isSome_iff W r.sched.tasks id
    have h2 := @getEntry_isSome_iff W s.tasks id
    rw [hkeys] at h1
    unfold GetTask
    cases ha : (getEntry r.sched.tasks id).isSome <;>
      cases hb : (getEntry s.tasks id).isSome <;> simp_all
  · intro id t hget hno
    cases hs : shouldSkip cv now t with
    | true => exact (handleDue_skipped cv hr hk hget hs).1
    | false =>
      obtain ⟨err, h1, _⟩ := handleDue_ran cv hr hk hget hs
      exact absurd h1 (hno err)

/-- C16 at the concrete registry of five tasks, at instant 200: the tasks `r1`, `d1` and `x1` are
not called and are left as they were. -/
theorem C16_frame_witness :
    (∃ r, handleDue cvAmd64 schedMixed 200 0 = some r ∧
      r.sched.tasks.map Prod.fst = schedMixed.tasks.map Prod.fst ∧
      TaskCount r.sched = TaskCount schedMixed ∧ r.sched.onError = schedMixed.onError ∧
      (∀ id, (GetTask r.sched id).isSome = (GetTask schedMixed id).isSome) ∧
      ∀ id t, GetTask schedMixed id = some t → (∀ err, (id, err) ∉ r.invoked) →
        GetTask r.sched id = some t) ∧
      ((handleDue cvAmd64 schedMixed 200 0).map fun r =>
        r.sched.tasks.map fun e => (e.1, e.2.Status, e.2.LastRun)) =
        some [("r1", StatusRunning, 50), ("p2", StatusFailed, 200), ("t1", StatusDone, 200),
          ("d1", StatusDone, 100), ("x1", StatusFailed, 11)] :=
  ⟨C16_frame cvAmd64 schedMixed 200 0 (by decide) (by decide), by decide⟩

/-- C17: in a registry with unique keys and non-nil `RunFunc`s, `handleDue(now)` returns, a task
whose status is Running when the pass starts is not called and not listed, at whatever instant,
and no id is called more than once in the pass. -/
theorem C17_running_not_reentered {W : Type} (cv : Int → Int) (s : Scheduler W) (now : Time)
    (w : W) (hk : KeysNodup s) (hf : RunFuncsSet s) :
    ∃ r, handleDue cv s now w = some r ∧
      (∀ id t, GetTask s id = some t → t.Status = StatusRunning →
        id ∉ r.executed ∧ (∀ err, (id, err) ∉ r.invoked) ∧ GetTask r.sched id = some t) ∧
      (r.invoked.map Prod.fst).Nodup ∧
      ∀ id, (r.invoked.map Prod.fst).count id ≤ 1 := by
  obtain ⟨r, hr⟩ := handleDue_total cv s now w hf
  have hnd : (r.invoked.map Prod.fst).Nodup := by
    rw [(handleDue_executed cv hr).2]
    exact handleDue_executed_nodup cv hr hk
  refine ⟨r, hr, ?_, hnd, fun id => List.nodup_iff_count_le_one.1 hnd id⟩
  intro id t hget hst
  obtain ⟨h1, h2, h3⟩ := handleDue_skipped cv hr hk hget (shouldSkip_running cv now hst)
  exact ⟨h2, h3, h1⟩

/-- C17 at the concrete registry of five tasks, at instant 200: the running task `r1`, whose
`NextRun` is long past, is not among the calls. -/
theorem C17_running_not_reentered_witness :
    (∃ r, handleDue cvAmd64 schedMixed 200 0 = some r ∧
      (∀ id t, GetTask schedMixed id = some t → t.Status = StatusRunning →
        id ∉ r.executed ∧ (∀ err, (id, err) ∉ r.invoked) ∧ GetTask r.sched id = some t) ∧
      (r.invoked.map Prod.fst).Nodup ∧
      ∀ id, (r.invoked.map Prod.fst).count id ≤ 1) ∧
      ((GetTask schedMixed "r1").map fun t => (t.Status, decide (t.NextRun < 200))) =
        some (StatusRunning, true) ∧
      ((handleDue cvAmd64 schedMixed 200 0).map fun r => r.invoked.map Prod.fst) =
        some ["p2", "t1"] :=
  ⟨C17_running_not_reentered cvAmd64 schedMixed 200 0 (by decide) (by decide), by decide,
    by decide⟩


/-! ## Reachable states and sequences of ticks -/

section reach
variable {W : Type} (cv : Int → Int)

theorem setEntry_mem {l : List (String × Task W)} {id : String} {t : Task W}
    {e : String × Task W} (h : e ∈ setEntry l id t) : e ∈ l ∨ e = (id, t) := by
  induction l with
  | nil =>
    simp [setEntry] at h
    exact Or.inr h
  | cons x rest ih =>
    obtain ⟨k, v⟩ := x
    by_cases hk : k = id
    · simp only [setEntry, hk, if_true] at h
      rcases List.mem_cons.1 h with h1 | h1
      · exact Or.inr h1
      · exact Or.inl (List.mem_cons_of_mem _ h1)
    · simp only [setEntry, hk, if_false] at h
      rcases List.mem_cons.1 h with h1 | h1
      · exact Or.inl (h1 ▸ List.mem_cons_self _ _)
      · rcases ih h1 with h2 | h2
        · exact Or.inl (List.mem_cons_of_mem _ h2)
        · exact Or.inr h2

theorem deleteEntry_mem {l : List (String × Task W)} {id : String} {e : String × Task W}
    (h : e ∈ deleteEntry l id) : e ∈ l := by
  induction l with
  | nil => simp [deleteEntry] at h
  | cons x rest ih =>
    obtain ⟨k, v⟩ := x
    by_cases hk : k = id
    · simp only [deleteEntry, hk, if_true] at h
      exact List.mem_cons_of_mem _ (ih h)
    · simp only [deleteEntry, hk, if_false] at h
      rcases List.mem_cons.1 h with h1 | h1
      · exact h1 ▸ List.mem_cons_self _ _
      · exact List.mem_cons_of_mem _ (ih h1)

/-- Every entry after the loop is an entry from before, kept as it was or settled after a call
of its `RunFunc`. -/
theorem handleDueLoop_tasks_mem (onError : Option (ErrFn W)) (now : Time)
    {l : List (String × Task W)} {w : W} {o : LoopOut W}
    (h : handleDueLoop cv onError now l w = some o) :
    ∀ e ∈ o.tasks, ∃ t, (e.1, t) ∈ l ∧
      (e.2 = t ∨ ∃ err, e.2 = settle cv now (markRunning now t) err) := by
  induction l generalizing w o with
  | nil =>
    simp [handleDueLoop] at h
    subst h
    simp
  | cons x rest ih =>
    obtain ⟨k, v⟩ := x
    rcases handleDueLoop_cons_cases cv onError now h with
      ⟨_, o2, ho2, rfl⟩ | ⟨_, f, w2, o2, _, ho2, rfl⟩
    · intro e he
      rcases List.mem_cons.1 he with h1 | h1
      · subst h1
        exact ⟨v, List.mem_cons_self _ _, Or.inl rfl⟩
      · obtain ⟨t, ht, hcase⟩ := ih ho2 e h1
        exact ⟨t, List.mem_cons_of_mem _ ht, hcase⟩
    · intro e he
      rcases List.mem_cons.1 he with h1 | h1
      · subst h1
        exact ⟨v, List.mem_cons_self _ _, Or.inr ⟨_, rfl⟩⟩
      · obtain ⟨t, ht, hcase⟩ := ih ho2 e h1
        exact ⟨t, List.mem_cons_of_mem _ ht, hcase⟩

theorem settle_status (now : Time) (t : Task W) (err : Option String) :
    (settle cv now (markRunning now t) err).Status ≠ StatusRunning ∧
      ((settle cv now (markRunning now t) err).Status = StatusDone →
        (settle cv now (markRunning now t) err).RetryCount = 0) := by
  cases err <;> simp [settle, markRunning]

/-- The invariant of the pass: no Running task, and a Done task has `RetryCount = 0`. -/
theorem handleDue_settled {s : Scheduler W} {now : Time} {w : W} {r : TickResult W}
    (h : handleDue cv s now w = some r)
    (hs : ∀ e ∈ s.tasks, e.2.Status ≠ StatusRunning ∧
      (e.2.Status = StatusDone → e.2.RetryCount = 0)) :
    ∀ e ∈ r.sched.tasks, e.2.Status ≠ StatusRunning ∧
      (e.2.Status = StatusDone → e.2.RetryCount = 0) := by
  obtain ⟨o, ho, rfl⟩ := handleDue_eq_some cv h
  intro e he
  obtain ⟨t, ht, hcase⟩ := handleDueLoop_tasks_mem cv s.onError now ho e he
  rcases hcase with h1 | ⟨err, h1⟩
  · rw [h1]
    exact hs (e.1, t) ht
  · rw [h1]
    exact settle_status cv now t err

/-- In every reachable state the keys are unique, every `RunFunc` is set, no task is Running and
a Done task has `RetryCount = 0`. -/
theorem Reachable_invariant {s : Scheduler W} (h : Reachable cv s) :
    KeysNodup s ∧ RunFuncsSet s ∧
      ∀ e ∈ s.tasks, e.2.Status ≠ StatusRunning ∧
        (e.2.Status = StatusDone → e.2.RetryCount = 0) := by
  induction h with
  | new => exact ⟨List.nodup_nil, by intro e he; simp [New] at he, by intro e he; simp [New] at he⟩
  | setErrorHandler handler _ ih => exact ih
  | @add s0 task now _ ih =>
    obtain ⟨ih1, ih2, ih3⟩ := ih
    by_cases hid : task.ID = ""
    · have : (Add s0 task now).sched = s0 := by simp [Add, hid]
      rw [this]
      exact ⟨ih1, ih2, ih3⟩
    · by_cases hrun : task.RunFunc = none
      · have : (Add s0 task now).sched = s0 := by simp [Add, hid, hrun]
        rw [this]
        exact ⟨ih1, ih2, ih3⟩
      · obtain ⟨_, _, hs⟩ := Add_valid s0 task now hid hrun
        have hrun2 : task.RunFunc.isNone = false := by
          cases h : task.RunFunc with
          | none => exact absurd h hrun
          | some f => rfl
        have hnew : (Add s0 task now).task.Status = StatusPending ∧
            (Add s0 task now).task.RunFunc.isSome = true := by
          have hsome : task.RunFunc.isSome = true := by
            cases h : task.RunFunc with
            | none => exact absurd h hrun
            | some f => rfl
          by_cases h1 : task.MaxRetries = 0 <;> by_cases h2 : task.BackoffBase = 0 <;>
            simp [Add, hid, hrun2, h1, h2, hsome]
        rw [hs]
        refine ⟨setEntry_nodup _ _ _ ih1, ?_, ?_⟩
        · intro e he
          rcases setEntry_mem he with h1 | h1
          · exact ih2 e h1
          · rw [h1]
            exact hnew.2
        · intro e he
          rcases setEntry_mem he with h1 | h1
          · exact ih3 e h1
          · rw [h1]
            simp [hnew.1]
  | @remove s0 id _ ih =>
    obtain ⟨ih1, ih2, ih3⟩ := ih
    by_cases hex : (getEntry s0.tasks id).isSome = true
    · have : (Remove s0 id).2 = { s0 with tasks := deleteEntry s0.tasks id } := by
        simp [Remove, hex]
      rw [this]
      exact ⟨List.Nodup.sublist (deleteEntry_sublist _ _) ih1,
        fun e he => ih2 e (deleteEntry_mem he), fun e he => ih3 e (deleteEntry_mem he)⟩
    · have : (Remove s0 id).2 = s0 := by simp [Remove, hex]
      rw [this]
      exact ⟨ih1, ih2, ih3⟩
  | @tick s0 now w r _ hr ih =>
    obtain ⟨ih1, ih2, ih3⟩ := ih
    exact ⟨handleDue_keysNodup cv hr ih1, handleDue_runFuncsSet cv hr ih2,
      handleDue_settled cv hr ih3⟩

end reach

/-- C22: in a registry with unique keys and non-nil `RunFunc`s in which no task is Running,
`handleDue(now)` returns and leaves no task Running, and a task whose call returned no error is
Done with `RetryCount = 0`; in every state reachable from `New()` by `SetErrorHandler`, `Add`,
`Remove` and `Tick`, every tick returns, every task is Pending, Done or Failed, and every Done
task has `RetryCount = 0`. -/
theorem C22_running_transient {W : Type} (cv : Int → Int) (s : Scheduler W) (now : Time) (w : W)
    (hk : KeysNodup s) (hf : RunFuncsSet s)
    (hnr : ∀ id t, GetTask s id = some t → t.Status ≠ StatusRunning) :
    ∃ r, handleDue cv s now w = some r ∧
      (∀ id t, GetTask r.sched id = some t → t.Status ≠ StatusRunning) ∧
      (∀ id t, GetTask r.sched id = some t → (id, none) ∈ r.invoked →
        t.Status = StatusDone ∧ t.RetryCount = 0) ∧
      ∀ s2 : Scheduler W, Reachable cv s2 →
        (∀ now2 w2, ∃ r2, Tick cv s2 now2 w2 = some r2) ∧
        ∀ id t, GetTask s2 id = some t →
          (t.Status = StatusPending ∨ t.Status = StatusDone ∨ t.Status = StatusFailed) ∧
          (t.Status = StatusDone → t.RetryCount = 0) := by
  obtain ⟨r, hr⟩ := handleDue_total cv s now w hf
  have hk2 := handleDue_keysNodup cv hr hk
  refine ⟨r, hr, ?_, ?_, ?_⟩
  · intro id t hget
    obtain ⟨o, ho, rfl⟩ := handleDue_eq_some cv hr
    obtain ⟨t0, ht0, hcase⟩ := handleDueLoop_tasks_mem cv s.onError now ho (id, t)
      (getEntry_mem hget)
    rcases hcase with h1 | ⟨err, h1⟩
    · have h1b : t = t0 := h1
      rw [h1b]
      exact hnr id t0 (getEntry_of_mem hk ht0)
    · have h1b : t = settle cv now (markRunning now t0) err := h1
      rw [h1b]
      exact (settle_status cv now t0 err).1
  · intro id t hget hinv
    have hsome : (GetTask s id).isSome = true := by
      have h1 := @getEntry_isSome_iff W r.sched.tasks id
      have h2 := @getEntry_isSome_iff W s.tasks id
      rw [handleDue_keys cv hr] at h1
      have h3 : (getEntry r.sched.tasks id).isSome = true := by
        unfold GetTask at hget
        rw [hget]
        rfl
      exact h2.2 (h1.1 h3)
    obtain ⟨t0, ht0⟩ := Option.isSome_iff_exists.1 hsome
    obtain ⟨_, hset⟩ := handleDue_invoked_result cv hr hk ht0 hinv
    rw [hget] at hset
    have h1 : t = settle cv now (markRunning now t0) none := Option.some.inj hset
    rw [h1]
    simp [settle, markRunning]
  · intro s2 hreach
    obtain ⟨_, hf2, hinv⟩ := Reachable_invariant cv hreach
    refine ⟨fun now2 w2 => handleDue_total cv s2 now2 w2 hf2, ?_⟩
    intro id t hget
    have := hinv (id, t) (getEntry_mem hget)
    refine ⟨?_, this.2⟩
    have hnr2 : t.Status ≠ StatusRunning := this.1
    cases hst : t.Status <;> simp_all

/-- C22 at a concrete registry of two pending tasks, at instant 200, and at the state reached
from `New()` by two calls of `Add` and a tick. -/
theorem C22_running_transient_witness :
    (∃ r, handleDue cvAmd64 schedPendingFailing 200 0 = some r ∧
      (∀ id t, GetTask r.sched id = some t → t.Status ≠ StatusRunning) ∧
      (∀ id t, GetTask r.sched id = some t → (id, none) ∈ r.invoked →
        t.Status = StatusDone ∧ t.RetryCount = 0) ∧
      ∀ s2 : Scheduler Nat, Reachable cvAmd64 s2 →
        (∀ now2 w2, ∃ r2, Tick cvAmd64 s2 now2 w2 = some r2) ∧
        ∀ id t, GetTask s2 id = some t →
          (t.Status = StatusPending ∨ t.Status = StatusDone ∨ t.Status = StatusFailed) ∧
          (t.Status = StatusDone → t.RetryCount = 0)) ∧
      ((handleDue cvAmd64 schedPendingFailing 200 0).map fun r =>
        r.sched.tasks.map fun e => (e.1, e.2.Status, e.2.RetryCount)) =
        some [("p2", StatusFailed, 1), ("t1", StatusDone, 0)] ∧
      Reachable cvAmd64 (Add (Add (New Nat) taskGetter 5).sched taskTwoTries 6).sched :=
  ⟨C22_running_transient cvAmd64 schedPendingFailing 200 0 (by decide) (by decide)
      (by
        intro id t hget
        have hmem := getEntry_mem hget
        simp only [schedPendingFailing, List.mem_cons, List.mem_singleton, Prod.mk.injEq,
          List.mem_nil_iff, or_false] at hmem
        rcases hmem with ⟨_, h⟩ | ⟨_, h⟩ <;> rw [h] <;> decide),
    by decide,
    Reachable.add taskTwoTries 6 (Reachable.add taskGetter 5 Reachable.new)⟩

section bound
variable {W : Type} (cv : Int → Int)

theorem runTicks_cons {s : Scheduler W} {now : Time} {rest : List Time} {w : W}
    {r : TickResult W} {fin : TicksResult W} (hr : handleDue cv s now w = some r)
    (hfin : runTicks cv r.sched rest r.world = some fin) :
    runTicks cv s (now :: rest) w = some ⟨fin.sched, fin.world, r.invoked ++ fin.invoked⟩ := by
  simp [runTicks, Tick, hr, hfin]

/-- Over any sequence of ticks, a task whose `RetryCount` is between 0 and its `MaxRetries`, and
is 0 unless the task is Failed, keeps this; and if all the calls of its `RunFunc` return an error,
their number plus the initial `RetryCount` does not exceed `MaxRetries`. -/
theorem runTicks_retry_bound (nows : List Time) (s : Scheduler W) (w : W) (id : String)
    (t : Task W) (hk : KeysNodup s) (hf : RunFuncsSet s) (hget : GetTask s id = some t)
    (h1 : 1 ≤ t.MaxRetries) (h2 : t.MaxRetries < 2 ^ 63) (h0 : 0 ≤ t.RetryCount)
    (hle : t.RetryCount ≤ t.MaxRetries) (hst : t.Status = StatusFailed ∨ t.RetryCount = 0) :
    ∃ fin t2, runTicks cv s nows w = some fin ∧ GetTask fin.sched id = some t2 ∧
      t2.MaxRetries = t.MaxRetries ∧ 0 ≤ t2.RetryCount ∧ t2.RetryCount ≤ t2.MaxRetries ∧
      ((∀ err, (id, err) ∈ fin.invoked → err ≠ none) →
        ((fin.invoked.map Prod.fst).count id : Int) + t.RetryCount ≤ t.MaxRetries) := by
  induction nows generalizing s w t with
  | nil =>
    refine ⟨⟨s, w, []⟩, t, rfl, hget, rfl, h0, hle, ?_⟩
    intro _
    simpa using hle
  | cons now rest ih =>
    obtain ⟨r, hr⟩ := handleDue_total cv s now w hf
    have hk2 := handleDue_keysNodup cv hr hk
    have hf2 := handleDue_runFuncsSet cv hr hf
    have hkeys := (handleDue_executed cv hr).2
    cases hs : shouldSkip cv now t with
    | true =>
      obtain ⟨hg, hnot, _⟩ := handleDue_skipped cv hr hk hget hs
      obtain ⟨fin, t2, hfin, hg2, hm, hr0, hrle, hcount⟩ :=
        ih r.sched r.world t hk2 hf2 hg h1 h2 h0 hle hst
      refine ⟨_, t2, runTicks_cons cv hr hfin, hg2, hm, hr0, hrle, ?_⟩
      intro hall
      have hc0 : (r.invoked.map Prod.fst).count id = 0 := by
        rw [hkeys]
        exact List.count_eq_zero_of_not_mem hnot
      have := hcount fun err herr => hall err (List.mem_append_right _ herr)
      simp only [List.map_append, List.count_append, hc0]
      simpa using this
    | false =>
      obtain ⟨err, hin, hex, hg, _⟩ := handleDue_ran cv hr hk hget hs
      have hc1 : (r.invoked.map Prod.fst).count id = 1 := by
        rw [hkeys]
        exact List.count_eq_one_of_mem (handleDue_executed_nodup cv hr hk) hex
      cases err with
      | none =>
        obtain ⟨fin, t2, hfin, hg2, hm, hr0, hrle, _⟩ :=
          ih r.sched r.world (settle cv now (markRunning now t) none) hk2 hf2 hg
            (by simpa [settle, markRunning] using h1) (by simpa [settle, markRunning] using h2)
            (by simp [settle, markRunning]) (by simp [settle, markRunning]; omega)
            (Or.inr (by simp [settle, markRunning]))
        refine ⟨_, t2, runTicks_cons cv hr hfin, hg2, ?_, hr0, hrle, ?_⟩
        · rw [hm]
          simp [settle, markRunning]
        · intro hall
          exact absurd rfl (hall none (List.mem_append_left _ hin))
      | some e =>
        have hlt : t.RetryCount + 1 ≤ t.MaxRetries := by
          rcases hst with hfail | hzero
          · have := ((shouldSkip_failed cv now hfail).1 hs).1
            omega
          · omega
        have hw : wrap64 (t.RetryCount + 1) = t.RetryCount + 1 :=
          wrap64_of_range (by omega) (by omega)
        have hrc : (settle cv now (markRunning now t) (some e)).RetryCount =
            t.RetryCount + 1 := by
          simp [settle, markRunning, hw]
        have hmx : (settle cv now (markRunning now t) (some e)).MaxRetries = t.MaxRetries := by
          simp [settle, markRunning]
        obtain ⟨fin, t2, hfin, hg2, hm, hr0, hrle, hcount⟩ :=
          ih r.sched r.world (settle cv now (markRunning now t) (some e)) hk2 hf2 hg
            (by rw [hmx]; exact h1) (by rw [hmx]; exact h2) (by rw [hrc]; omega)
            (by rw [hrc, hmx]; exact hlt) (Or.inl (by simp [settle, markRunning]))
        refine ⟨_, t2, runTicks_cons cv hr hfin, hg2, by rw [hm, hmx], hr0, hrle, ?_⟩
        intro hall
        have := hcount fun err herr => hall err (List.mem_append_right _ herr)
        rw [hrc, hmx] at this
        simp only [List.map_append, List.count_append, hc1]
        push_cast
        omega

end bound

/-- C23: for a valid task registered by `Add` with `retryCount = 0` and a `maxRetries` between 0
and the largest 64-bit integer (0 being defaulted to 3), over any sequence of ticks at any
instants every tick returns, and afterwards the task's `RetryCount` is between 0 and its
`MaxRetries`; and if every call of its `RunFunc` returned an error, the `RunFunc` was called at
most `MaxRetries` times in total. -/
theorem C23_retry_bound {W : Type} (cv : Int → Int) (s0 : Scheduler W) (task : Task W)
    (now0 : Time) (nows : List Time) (w : W) (hk : KeysNodup s0) (hf : RunFuncsSet s0)
    (hid : task.ID ≠ "") (hrun : task.RunFunc ≠ none) (hrc : task.RetryCount = 0)
    (hmax0 : 0 ≤ task.MaxRetries) (hmax1 : task.MaxRetries < 2 ^ 63) :
    ∃ fin t2, runTicks cv (Add s0 task now0).sched nows w = some fin ∧
      GetTask fin.sched task.ID = some t2 ∧
      t2.MaxRetries = (if task.MaxRetries = 0 then 3 else task.MaxRetries) ∧
      0 ≤ t2.RetryCount ∧ t2.RetryCount ≤ t2.MaxRetries ∧
      ((∀ err, (task.ID, err) ∈ fin.invoked → err ≠ none) →
        ((fin.invoked.map Prod.fst).count task.ID : Int) ≤ t2.MaxRetries) := by
  obtain ⟨_, _, hs⟩ := Add_valid s0 task now0 hid hrun
  have hrun2 : task.RunFunc.isNone = false := by
    cases h : task.RunFunc with
    | none => exact absurd h hrun
    | some f => rfl
  have hsome : task.RunFunc.isSome = true := by
    cases h : task.RunFunc with
    | none => exact absurd h hrun
    | some f => rfl
  have hnew : (Add s0 task now0).task.RetryCount = 0 ∧
      (Add s0 task now0).task.MaxRetries = (if task.MaxRetries = 0 then 3 else task.MaxRetries) ∧
      (Add s0 task now0).task.RunFunc.isSome = true := by
    by_cases h1 : task.MaxRetries = 0 <;> by_cases h2 : task.BackoffBase = 0 <;>
      simp [Add, hid, hrun2, h1, h2, hrc, hsome]
  have hk1 : KeysNodup (Add s0 task now0).sched := by
    rw [hs]
    exact setEntry_nodup _ _ _ hk
  have hf1 : RunFuncsSet (Add s0 task now0).sched := by
    rw [hs]
    intro e he
    rcases setEntry_mem he with h1 | h1
    · exact hf e h1
    · rw [h1]
      exact hnew.2.2
  have hget : GetTask (Add s0 task now0).sched task.ID = some (Add s0 task now0).task := by
    rw [hs]
    exact getEntry_setEntry_same _ _ _
  have hM1 : 1 ≤ (Add s0 task now0).task.MaxRetries := by
    rw [hnew.2.1]
    split_ifs with h
    · norm_num
    · omega
  have hM2 : (Add s0 task now0).task.MaxRetries < 2 ^ 63 := by
    rw [hnew.2.1]
    split_ifs with h
    · norm_num
    · exact hmax1
  obtain ⟨fin, t2, hfin, hg2, hm, hr0, hrle, hcount⟩ :=
    runTicks_retry_bound cv nows (Add s0 task now0).sched w task.ID (Add s0 task now0).task
      hk1 hf1 hget hM1 hM2 (by rw [hnew.1]) (by rw [hnew.1]; omega) (Or.inr hnew.1)
  refine ⟨fin, t2, hfin, hg2, by rw [hm, hnew.2.1], hr0, hrle, ?_⟩
  intro hall
  have := hcount hall
  rw [hnew.1] at this
  rw [hm]
  omega

/-- C23 at a concrete input: the always-failing task with `MaxRetries = 2`, registered at instant
6 and ticked five times; it is called twice and ends with `RetryCount = 2`. -/
theorem C23_retry_bound_witness :
    (∃ fin t2, runTicks cvAmd64 (Add (New Nat) taskTwoTries 6).sched
        [7, 8, 3000000, 9000000, 1000000000000] 0 = some fin ∧
      GetTask fin.sched taskTwoTries.ID = some t2 ∧
      t2.MaxRetries = (if taskTwoTries.MaxRetries = 0 then 3 else taskTwoTries.MaxRetries) ∧
      0 ≤ t2.RetryCount ∧ t2.RetryCount ≤ t2.MaxRetries ∧
      ((∀ err, (taskTwoTries.ID, err) ∈ fin.invoked → err ≠ none) →
        ((fin.invoked.map Prod.fst).count taskTwoTries.ID : Int) ≤ t2.MaxRetries)) ∧
      ((runTicks cvAmd64 (Add (New Nat) taskTwoTries 6).sched
        [7, 8, 3000000, 9000000, 1000000000000] 0).map fun fin => fin.invoked) =
        some [("q1", some "task error"), ("q1", some "task error")] ∧
      ((runTicks cvAmd64 (Add (New Nat) taskTwoTries 6).sched
        [7, 8, 3000000, 9000000, 1000000000000] 0).bind fun fin =>
          (GetTask fin.sched "q1").map fun t => (t.Status, t.RetryCount)) =
        some (StatusFailed, 2) :=
  ⟨C23_retry_bound cvAmd64 (New Nat) taskTwoTries 6 [7, 8, 3000000, 9000000, 1000000000000] 0
      (by decide) (by decide) (by decide) (by simp [taskTwoTries]) rfl (by decide) (by decide),
    by decide, by decide⟩

/-- C24, as stated, fails when the 64-bit product overflows: with the default base of one second
the delay for `retryCount = 34` is negative and is not twice the delay for 33; a task that fails
for the 34th time gets a `NextRun` before its `LastRun`. -/
theorem C24_counterexample :
    backoff cvAmd64 Second 33 = 8589934592000000000 ∧
      backoff cvAmd64 Second 34 = -1266874889709551616 ∧
      ((handleDue cvAmd64 schedFailedAfter33 8589934592000000001 0).bind fun r =>
        (GetTask r.sched "o1").map fun t =>
          (t.Status, t.RetryCount, decide (t.NextRun < t.LastRun))) =
        some (StatusFailed, 34, true) := by
  decide

/-- C24 (amended): for every `backoffBase > 0` and every `retryCount` between 0 and 62 such that
`backoffBase * 2^retryCount` does not exceed the largest 64-bit integer, the backoff delay
computed by the code is `backoffBase * 2^retryCount`, is positive, and for `retryCount >= 1` is
exactly twice the delay for `retryCount - 1`; a failing run that leaves the task with such a
`retryCount` sets `nextRun = lastRun + delay`, strictly later than `lastRun`. -/
theorem C24_backoff_growth (cv : Int → Int) (base rc : Int) (hb : 0 < base) (h0 : 0 ≤ rc)
    (h1 : rc ≤ 62) (hfit : base * 2 ^ rc.toNat < 2 ^ 63) :
    backoff cv base rc = base * 2 ^ rc.toNat ∧ 0 < backoff cv base rc ∧
      (1 ≤ rc → backoff cv base rc = 2 * backoff cv base (rc - 1)) ∧
      ∀ (W : Type) (now : Time) (t : Task W) (e : String),
        t.BackoffBase = base → wrap64 (t.RetryCount + 1) = rc →
        (settle cv now (markRunning now t) (some e)).NextRun =
            (settle cv now (markRunning now t) (some e)).LastRun + backoff cv base rc ∧
          (settle cv now (markRunning now t) (some e)).LastRun <
            (settle cv now (markRunning now t) (some e)).NextRun := by
  have hpos : (0 : Int) < base * 2 ^ rc.toNat := Int.mul_pos hb (by positivity)
  have heq : backoff cv base rc = base * 2 ^ rc.toNat :=
    backoff_of_range cv h0 h1 (by omega) hfit
  refine ⟨heq, by rw [heq]; exact hpos, ?_, ?_⟩
  · intro hge
    have hn : rc.toNat = (rc - 1).toNat + 1 := by omega
    have hpow : (2 : Int) ^ rc.toNat = 2 * 2 ^ (rc - 1).toNat := by
      rw [hn, pow_succ]
      ring
    have hprev : backoff cv base (rc - 1) = base * 2 ^ (rc - 1).toNat := by
      apply backoff_of_range cv (by omega) (by omega)
      · have : (0 : Int) ≤ base * 2 ^ (rc - 1).toNat :=
          Int.mul_nonneg (le_of_lt hb) (by positivity)
        omega
      · have hp : (0 : Int) < base * 2 ^ (rc - 1).toNat := Int.mul_pos hb (by positivity)
        rw [hpow] at hfit
        nlinarith
    rw [heq, hprev, hpow]
    ring
  · intro W now t e hbase hrc
    have hnext : (settle cv now (markRunning now t) (some e)).NextRun =
        (settle cv now (markRunning now t) (some e)).LastRun + backoff cv base rc := by
      simp [settle, markRunning, hbase, hrc]
    refine ⟨hnext, ?_⟩
    rw [hnext, heq]
    exact lt_add_of_pos_right _ hpos

/-- C24 (amended) at the default base of one second and `retryCount = 3`: a delay of eight
seconds, twice the four seconds of `retryCount = 2`. -/
theorem C24_backoff_growth_witness :
    (backoff cvAmd64 Second 3 = Second * 2 ^ (3 : Int).toNat ∧ 0 < backoff cvAmd64 Second 3 ∧
      (1 ≤ (3 : Int) → backoff cvAmd64 Second 3 = 2 * backoff cvAmd64 Second (3 - 1)) ∧
      ∀ (W : Type) (now : Time) (t : Task W) (e : String),
        t.BackoffBase = Second → wrap64 (t.RetryCount + 1) = 3 →
        (settle cvAmd64 now (markRunning now t) (some e)).NextRun =
            (settle cvAmd64 now (markRunning now t) (some e)).LastRun +
              backoff cvAmd64 Second 3 ∧
          (settle cvAmd64 now (markRunning now t) (some e)).LastRun <
            (settle cvAmd64 now (markRunning now t) (some e)).NextRun) ∧
      backoff cvAmd64 Second 3 = 8000000000 ∧ backoff cvAmd64 Second 2 = 4000000000 :=
  ⟨C24_backoff_growth cvAmd64 Second 3 (by decide) (by decide) (by decide) (by decide),
    by decide, by decide⟩

end scheduler

namespace processor

/-! ## The retry helper -/

/-- What the loop of `RetryWithBackoff` does with `k` iterations left: at most `k` calls, all
but the last returning an error, the result of the last being returned; without a call the
current `lastErr` is returned; an error is returned only after all `k` calls. -/
theorem retryLoop_spec {W : Type} (cv : Int → Int → Int) (config : RetryConfig)
    (fn : W → Option String × W) (k : Nat) (attempt : Int) (lastErr : Option String) (w : W) :
    (retryLoop cv config fn k attempt lastErr w).calls.length ≤ k ∧
      (∀ c ∈ (retryLoop cv config fn k attempt lastErr w).calls.dropLast, c ≠ none) ∧
      ((retryLoop cv config fn k attempt lastErr w).calls = [] →
        k = 0 ∧ (retryLoop cv config fn k attempt lastErr w).err = lastErr) ∧
      ((retryLoop cv config fn k attempt lastErr w).calls ≠ [] →
        (retryLoop cv config fn k attempt lastErr w).calls.getLast? =
          some (retryLoop cv config fn k attempt lastErr w).err) ∧
      ((retryLoop cv config fn k attempt lastErr w).err ≠ none →
        (retryLoop cv config fn k attempt lastErr w).calls.length = k) := by
  induction k generalizing attempt lastErr w with
  | zero => simp [retryLoop]
  | succ k ih =>
    cases hres : (fn w).1 with
    | none => simp [retryLoop, hres]
    | some e =>
      obtain ⟨h1, h2, h3, h4, h5⟩ := ih (attempt + 1) (some e) (fn w).2
      simp only [retryLoop, hres]
      refine ⟨by simpa using h1, ?_, by simp, ?_, ?_⟩
      · intro c hc
        cases hcalls : (retryLoop cv config fn k (attempt + 1) (some e) (fn w).2).calls with
        | nil => simp [hcalls] at hc
        | cons x xs =>
          rw [hcalls, List.dropLast_cons₂] at hc
          rcases List.mem_cons.1 hc with hc1 | hc1
          · rw [hc1]
            simp
          · exact h2 c (by rw [hcalls]; exact hc1)
      · intro _
        cases hcalls : (retryLoop cv config fn k (attempt + 1) (some e) (fn w).2).calls with
        | nil =>
          have := (h3 hcalls).2
          simp [this]
        | cons x xs =>
          have h4b := h4 (by rw [hcalls]; simp)
          rw [hcalls] at h4b
          rw [List.getLast?_cons_cons]
          exact h4b
      · intro hne
        have := h5 hne
        simp [this]

/-- C18: for `MaxAttempts >= 1`, `RetryWithBackoff` calls `fn` at least once and at most
`MaxAttempts` times, every call but the last returns an error, and it returns what the last call
returned: nil at the first call that returns nil, and otherwise, after exactly `MaxAttempts`
calls, the error of the last call. For `MaxAttempts < 1` it returns an error without calling `fn`
at all. -/
theorem C18_retry_with_backoff {W : Type} (cv : Int → Int → Int) (config : RetryConfig)
    (fn : W → Option String × W) (w : W) :
    (1 ≤ config.MaxAttempts →
      1 ≤ (RetryWithBackoff cv config fn w).calls.length ∧
        ((RetryWithBackoff cv config fn w).calls.length : Int) ≤ config.MaxAttempts ∧
        (∀ c ∈ (RetryWithBackoff cv config fn w).calls.dropLast, c ≠ none) ∧
        (RetryWithBackoff cv config fn w).calls.getLast? =
          some (RetryWithBackoff cv config fn w).err ∧
        ((RetryWithBackoff cv config fn w).err ≠ none →
          ((RetryWithBackoff cv config fn w).calls.length : Int) = config.MaxAttempts)) ∧
      (config.MaxAttempts < 1 →
        (RetryWithBackoff cv config fn w).err ≠ none ∧
          (RetryWithBackoff cv config fn w).calls = [] ∧
          (RetryWithBackoff cv config fn w).world = w) := by
  constructor
  · intro hge
    have hnot : ¬ config.MaxAttempts < 1 := not_lt.2 hge
    have hR : RetryWithBackoff cv config fn w =
        retryLoop cv config fn config.MaxAttempts.toNat 0 none w := by
      simp [RetryWithBackoff, hnot]
    rw [hR]
    obtain ⟨h1, h2, h3, h4, h5⟩ :=
      retryLoop_spec cv config fn config.MaxAttempts.toNat 0 none w
    have hk : (config.MaxAttempts.toNat : Int) = config.MaxAttempts :=
      Int.toNat_of_nonneg (by omega)
    have hne : (retryLoop cv config fn config.MaxAttempts.toNat 0 none w).calls ≠ [] := by
      intro hnil
      have := (h3 hnil).1
      omega
    refine ⟨?_, by omega, h2, h4 hne, ?_⟩
    · exact List.length_pos.2 hne
    · intro herr
      have := h5 herr
      omega
  · intro hlt
    simp [RetryWithBackoff, hlt]

/-- C18 at the inputs of the tests: with `MaxAttempts = 3` and a closure failing twice, three
calls and a nil result; with a closure always failing, three calls and the last error; with
`MaxAttempts = 0`, an error and no call. -/
theorem C18_retry_with_backoff_witness :
    ((1 ≤ configThree.MaxAttempts →
      1 ≤ (RetryWithBackoff cvAmd64 configThree notYetTwice 0).calls.length ∧
        ((RetryWithBackoff cvAmd64 configThree notYetTwice 0).calls.length : Int) ≤
          configThree.MaxAttempts ∧
        (∀ c ∈ (RetryWithBackoff cvAmd64 configThree notYetTwice 0).calls.dropLast, c ≠ none) ∧
        (RetryWithBackoff cvAmd64 configThree notYetTwice 0).calls.getLast? =
          some (RetryWithBackoff cvAmd64 configThree notYetTwice 0).err ∧
        ((RetryWithBackoff cvAmd64 configThree notYetTwice 0).err ≠ none →
          ((RetryWithBackoff cvAmd64 configThree notYetTwice 0).calls.length : Int) =
            configThree.MaxAttempts)) ∧
      (configThree.MaxAttempts < 1 →
        (RetryWithBackoff cvAmd64 configThree notYetTwice 0).err ≠ none ∧
          (RetryWithBackoff cvAmd64 configThree notYetTwice 0).calls = [] ∧
          (RetryWithBackoff cvAmd64 configThree notYetTwice 0).world = 0)) ∧
      (RetryWithBackoff cvAmd64 configThree notYetTwice 0).calls =
        [some "not yet", some "not yet", none] ∧
      (RetryWithBackoff cvAmd64 configThree notYetTwice 0).err = none ∧
      (RetryWithBackoff cvAmd64 configThree alwaysFail 0).calls =
        [some "fail", some "fail", some "fail"] ∧
      (RetryWithBackoff cvAmd64 configThree alwaysFail 0).err = some "fail" ∧
      (RetryWithBackoff cvAmd64 { configThree with MaxAttempts := 0 } alwaysFail 0).calls = [] :=
  ⟨C18_retry_with_backoff cvAmd64 configThree notYetTwice 0, by decide, by decide, by decide,
    by decide, by decide⟩

theorem float64OfInt_small {x : Int} (h0 : 0 ≤ x) (h1 : x < 2 ^ 53) : float64OfInt x = x := by
  unfold float64OfInt
  have : x.natAbs < 2 ^ 53 := by omega
  simp only [if_pos this]

/-- C19, as stated, fails for a base that `float64` cannot hold: with `attempt = 0`,
`base = 2^53 + 1` nanoseconds and `max = 2^62` the result is `2^53`, not
`min(base * 2^0, max) = 2^53 + 1`. -/
theorem C19_counterexample :
    ExponentialDelay cvAmd64 0 9007199254740993 (2 ^ 62) = 9007199254740992 ∧
      min (9007199254740993 * 2 ^ 0) ((2 : Int) ^ 62) = 9007199254740993 := by
  decide

/-- C19 (amended): for every `attempt >= 0` the result never exceeds `max`; for
`0 <= attempt <= 1023` and `0 <= base < 2^53` with `base * 2^attempt < 2^63`, the result equals
`min(base * 2^attempt, max)`; and for every negative attempt the result is `base`. -/
theorem C19_exponential_delay (cv : Int → Int → Int) (attempt : Int) (base max : Int) :
    (0 ≤ attempt → ExponentialDelay cv attempt base max ≤ max) ∧
      (0 ≤ attempt → attempt ≤ 1023 → 0 ≤ base → base < 2 ^ 53 →
        base * 2 ^ attempt.toNat < 2 ^ 63 →
        ExponentialDelay cv attempt base max = min (base * 2 ^ attempt.toNat) max) ∧
      (attempt < 0 → ExponentialDelay cv attempt base max = base) := by
  refine ⟨?_, ?_, ?_⟩
  · intro h0
    unfold ExponentialDelay
    rw [if_neg (not_lt.2 h0)]
    simp only
    split_ifs with h
    · exact le_refl _
    · exact not_lt.1 h
  · intro h0 h1 hb0 hb1 hfit
    have hf : float64OfInt base = base := float64OfInt_small hb0 hb1
    have hnn : (0 : Int) ≤ base * 2 ^ attempt.toNat := Int.mul_nonneg hb0 (by positivity)
    have hs : scaledDelay cv base attempt = base * 2 ^ attempt.toNat := by
      unfold scaledDelay
      rw [hf, if_pos ⟨h1, by omega, hfit⟩]
    unfold ExponentialDelay
    rw [if_neg (not_lt.2 h0)]
    simp only [hs]
    split_ifs with h
    · exact (min_eq_right (le_of_lt h)).symm
    · exact (min_eq_left (not_lt.1 h)).symm
  · intro hneg
    simp [ExponentialDelay, hneg]

/-- C19 (amended) at the inputs of `TestExponentialDelay`: 100 ms doubling up to the cap of 2 s,
and the base for attempt `-1`. -/
theorem C19_exponential_delay_witness :
    ((0 ≤ (2 : Int) → ExponentialDelay cvAmd64 2 (100 * Millisecond) (2 * Second) ≤ 2 * Second) ∧
      (0 ≤ (2 : Int) → (2 : Int) ≤ 1023 → 0 ≤ 100 * Millisecond → 100 * Millisecond < 2 ^ 53 →
        100 * Millisecond * 2 ^ (2 : Int).toNat < 2 ^ 63 →
        ExponentialDelay cvAmd64 2 (100 * Millisecond) (2 * Second) =
          min (100 * Millisecond * 2 ^ (2 : Int).toNat) (2 * Second)) ∧
      ((2 : Int) < 0 →
        ExponentialDelay cvAmd64 2 (100 * Millisecond) (2 * Second) = 100 * Millisecond)) ∧
      ExponentialDelay cvAmd64 2 (100 * Millisecond) (2 * Second) = 400 * Millisecond ∧
      ExponentialDelay cvAmd64 10 (100 * Millisecond) (2 * Second) = 2 * Second ∧
      ExponentialDelay cvAmd64 (-1) (100 * Millisecond) (2 * Second) = 100 * Millisecond :=
  ⟨C19_exponential_delay cvAmd64 2 (100 * Millisecond) (2 * Second), by decide, by decide,
    by decide⟩

/-! ## The job processor -/

theorem Process_ID (job : Job) (start done finish : Time) :
    (Process job start done finish).1.ID = job.ID := by
  unfold Process
  simp only
  split_ifs <;> rfl

theorem processLoop_ids (clk : Nat → Time) (l : List Job) (k : Nat) :
    (processLoop clk l k).1.map Job.ID = l.map Job.ID := by
  induction l generalizing k with
  | nil => rfl
  | cons job rest ih =>
    by_cases h : job.Status = Pending
    · simp [processLoop, h, ih, Process_ID]
    · simp [processLoop, h, ih]

/-- The three error returns of `Enqueue`, and its success. -/
theorem Enqueue_cases (p : Processor) (job : Job) (now : Time) :
    ((job.ID = "" ∨ job.Name = "" ∨ ∃ existing ∈ p.queue, existing.ID = job.ID) →
      (Enqueue p job now).1 ≠ none ∧ (Enqueue p job now).2 = p) ∧
      (¬ (job.ID = "" ∨ job.Name = "" ∨ ∃ existing ∈ p.queue, existing.ID = job.ID) →
        (Enqueue p job now).1 = none ∧
          (Enqueue p job now).2 =
            { p with queue := p.queue ++ [{ job with Status := Pending, CreatedAt := now }] }) := by
  by_cases h1 : job.ID = ""
  · simp [Enqueue, h1]
  · by_cases h2 : job.Name = ""
    · simp [Enqueue, h1, h2]
    · by_cases h3 : ∃ existing ∈ p.queue, existing.ID = job.ID
      · have hany : (p.queue.any fun existing => decide (existing.ID = job.ID)) = true := by
          obtain ⟨e, he, hid⟩ := h3
          exact List.any_eq_true.2 ⟨e, he, by simpa using hid⟩
        constructor
        · intro _
          simp [Enqueue, h1, h2, hany]
        · intro hn
          exact absurd (Or.inr (Or.inr h3)) hn
      · have hany : (p.queue.any fun existing => decide (existing.ID = job.ID)) = false := by
          rw [Bool.eq_false_iff]
          intro ht
          obtain ⟨e, he, hid⟩ := List.any_eq_true.1 ht
          exact h3 ⟨e, he, by simpa using hid⟩
        constructor
        · intro h
          rcases h with h | h | h
          · exact absurd h h1
          · exact absurd h h2
          · exact absurd h h3
        · intro _
          simp [Enqueue, h1, h2, hany]

/-- The ids of the queue are pairwise distinct and non-empty in every reachable state. -/
theorem Reachable_ids {p : Processor} (h : Reachable p) :
    (p.queue.map Job.ID).Nodup ∧ ∀ j ∈ p.queue, j.ID ≠ "" := by
  induction h with
  | init c => simp [NewProcessor]
  | @enqueue q job now _ ih =>
    by_cases hbad : job.ID = "" ∨ job.Name = "" ∨ ∃ existing ∈ q.queue, existing.ID = job.ID
    · rw [((Enqueue_cases q job now).1 hbad).2]
      exact ih
    · rw [((Enqueue_cases q job now).2 hbad).2]
      simp only [not_or, not_exists, not_and] at hbad
      obtain ⟨hid, _, hnew⟩ := hbad
      constructor
      · simp only [List.map_append, List.map_cons, List.map_nil]
        refine List.Nodup.append ih.1 (List.nodup_singleton _) ?_
        intro a ha hb
        rw [List.mem_singleton] at hb
        obtain ⟨e, he, hea⟩ := List.mem_map.1 ha
        exact hnew e he (by rw [hea, hb])
      · intro j hj
        rcases List.mem_append.1 hj with hj1 | hj1
        · exact ih.2 j hj1
        · rw [List.mem_singleton] at hj1
          rw [hj1]
          exact hid
  | @processAll q clk _ ih =>
    have hids : (ProcessAll q clk).2.queue.map Job.ID = q.queue.map Job.ID :=
      processLoop_ids clk q.queue 0
    constructor
    · rw [hids]
      exact ih.1
    · intro j hj
      have hmem : j.ID ∈ (ProcessAll q clk).2.queue.map Job.ID := List.mem_map_of_mem Job.ID hj
      rw [hids] at hmem
      obtain ⟨e, he, hej⟩ := List.mem_map.1 hmem
      rw [← hej]
      exact ih.2 e he

/-- C20: `Enqueue` returns an error and leaves the processor unchanged when the job's ID is
empty, its name is empty, or a job with the same ID is already in the queue; otherwise it returns
no error and appends the job at the end of the queue with status Pending (and `CreatedAt` set).
In every state reachable from `NewProcessor` by `Enqueue` and `ProcessAll` the job IDs in the
queue are pairwise distinct and non-empty. -/
theorem C20_enqueue (p : Processor) (job : Job) (now : Time) :
    ((job.ID = "" ∨ job.Name = "" ∨ ∃ existing ∈ p.queue, existing.ID = job.ID) →
      (Enqueue p job now).1 ≠ none ∧ (Enqueue p job now).2 = p) ∧
      (¬ (job.ID = "" ∨ job.Name = "" ∨ ∃ existing ∈ p.queue, existing.ID = job.ID) →
        (Enqueue p job now).1 = none ∧
          (Enqueue p job now).2.queue =
            p.queue ++ [{ job with Status := Pending, CreatedAt := now }] ∧
          (Enqueue p job now).2.concurrency = p.concurrency) ∧
      (Reachable p → (p.queue.map Job.ID).Nodup ∧ ∀ j ∈ p.queue, j.ID ≠ "") := by
  refine ⟨(Enqueue_cases p job now).1, ?_, Reachable_ids⟩
  intro h
  obtain ⟨h1, h2⟩ := (Enqueue_cases p job now).2 h
  rw [h2]
  exact ⟨h1, rfl, rfl⟩

/-- C20 at the inputs of `TestEnqueue`: a first job is appended as Pending, a second job with the
same ID is refused, and the queue reached after a `ProcessAll` has distinct, non-empty IDs. -/
theorem C20_enqueue_witness :
    (((jobOne.ID = "" ∨ jobOne.Name = "" ∨
          ∃ existing ∈ (ProcessAll (Enqueue (NewProcessor 2) jobOne 5).2 tickingClock).2.queue,
            existing.ID = jobOne.ID) →
        (Enqueue (ProcessAll (Enqueue (NewProcessor 2) jobOne 5).2 tickingClock).2 jobOne 9).1 ≠
            none ∧
          (Enqueue (ProcessAll (Enqueue (NewProcessor 2) jobOne 5).2 tickingClock).2 jobOne 9).2 =
            (ProcessAll (Enqueue (NewProcessor 2) jobOne 5).2 tickingClock).2) ∧
      (¬ (jobOne.ID = "" ∨ jobOne.Name = "" ∨
          ∃ existing ∈ (ProcessAll (Enqueue (NewProcessor 2) jobOne 5).2 tickingClock).2.queue,
            existing.ID = jobOne.ID) →
        (Enqueue (ProcessAll (Enqueue (NewProcessor 2) jobOne 5).2 tickingClock).2 jobOne 9).1 =
            none ∧
          (Enqueue (ProcessAll (Enqueue (NewProcessor 2) jobOne 5).2 tickingClock).2 jobOne
              9).2.queue =
            (ProcessAll (Enqueue (NewProcessor 2) jobOne 5).2 tickingClock).2.queue ++
              [{ jobOne with Status := Pending, CreatedAt := 9 }] ∧
          (Enqueue (ProcessAll (Enqueue (NewProcessor 2) jobOne 5).2 tickingClock).2 jobOne
              9).2.concurrency =
            (ProcessAll (Enqueue (NewProcessor 2) jobOne 5).2 tickingClock).2.concurrency) ∧
      (Reachable (ProcessAll (Enqueue (NewProcessor 2) jobOne 5).2 tickingClock).2 →
        ((ProcessAll (Enqueue (NewProcessor 2) jobOne 5).2 tickingClock).2.queue.map
            Job.ID).Nodup ∧
          ∀ j ∈ (ProcessAll (Enqueue (NewProcessor 2) jobOne 5).2 tickingClock).2.queue,
            j.ID ≠ "")) ∧
      Reachable (ProcessAll (Enqueue (NewProcessor 2) jobOne 5).2 tickingClock).2 ∧
      (Enqueue (NewProcessor 2) jobOne 5).2.queue =
        [{ jobOne with Status := Pending, CreatedAt := 5 }] ∧
      (Enqueue (Enqueue (NewProcessor 2) jobOne 5).2 jobOne 6).1 =
        some ("job with ID " ++ quoted "job-1" ++ " already exists") ∧
      (Enqueue (NewProcessor 2) { jobOne with ID := "" } 5).1 =
        some "job ID must not be empty" ∧
      (Enqueue (NewProcessor 2) { jobOne with Name := "" } 5).1 =
        some "job name must not be empty" :=
  ⟨C20_enqueue (ProcessAll (Enqueue (NewProcessor 2) jobOne 5).2 tickingClock).2 jobOne 9,
    Reachable.processAll tickingClock (Reachable.enqueue jobOne 5 (Reachable.init 2)),
    by decide, by decide, by decide, by decide⟩


/-! ## The loop of `ProcessAll` -/

/-- What `Process` does to the job and what it reports, by the presence of the key `fail`. -/
theorem Process_spec (job : Job) (start done finish : Time) :
    (Process job start done finish).1 =
        { job with
          Status := if (job.Payload.any fun kv => decide (kv.1 = "fail")) then Failed
            else Completed
          CompletedAt := done } ∧
      (Process job start done finish).2.JobID = job.ID ∧
      (Process job start done finish).2.Success =
        !(job.Payload.any fun kv => decide (kv.1 = "fail")) := by
  unfold Process
  simp only
  split_ifs with h <;> simp [h]

theorem processLoop_results (clk : Nat → Time) (l : List Job) (k : Nat) :
    (processLoop clk l k).2.map (fun r => (r.JobID, r.Success)) =
      (l.filter fun j => decide (j.Status = Pending)).map
        (fun j => (j.ID, !(j.Payload.any fun kv => decide (kv.1 = "fail")))) := by
  induction l generalizing k with
  | nil => rfl
  | cons job rest ih =>
    by_cases h : job.Status = Pending
    · simp [processLoop, h, ih, (Process_spec job _ _ _).2.1, (Process_spec job _ _ _).2.2]
    · simp [processLoop, h, ih]

theorem processLoop_jobs (clk : Nat → Time) (l : List Job) (k : Nat) :
    List.Forall₂
      (fun (before after : Job) =>
        (before.Status = Pending →
          ∃ done, after =
            { before with
              Status := if (before.Payload.any fun kv => decide (kv.1 = "fail")) then Failed
                else Completed
              CompletedAt := done }) ∧
        (before.Status ≠ Pending → after = before))
      l (processLoop clk l k).1 := by
  induction l generalizing k with
  | nil => exact List.Forall₂.nil
  | cons job rest ih =>
    by_cases h : job.Status = Pending
    · simp only [processLoop, h, if_true]
      refine List.Forall₂.cons ⟨fun _ => ⟨_, (Process_spec job _ _ _).1⟩, fun hn => ?_⟩ (ih _)
      exact absurd h hn
    · simp only [processLoop, h, if_false]
      exact List.Forall₂.cons ⟨fun hp => absurd hp h, fun _ => rfl⟩ (ih _)

theorem processLoop_no_pending (clk : Nat → Time) (l : List Job) (k : Nat) :
    ∀ j ∈ (processLoop clk l k).1, j.Status ≠ Pending := by
  induction l generalizing k with
  | nil => simp [processLoop]
  | cons job rest ih =>
    by_cases h : job.Status = Pending
    · simp only [processLoop, h, if_true]
      intro j hj
      rcases List.mem_cons.1 hj with hj1 | hj1
      · rw [hj1, (Process_spec job _ _ _).1]
        simp only
        split_ifs <;> decide
      · exact ih _ j hj1
    · simp only [processLoop, h, if_false]
      intro j hj
      rcases List.mem_cons.1 hj with hj1 | hj1
      · rw [hj1]
        exact h
      · exact ih _ j hj1

theorem PendingCount_eq_zero (p : Processor) (h : ∀ j ∈ p.queue, j.Status ≠ Pending) :
    PendingCount p = 0 := by
  unfold PendingCount
  generalize p.queue = l at h
  induction l with
  | nil => rfl
  | cons j rest ih =>
    have hj : j.Status ≠ Pending := h j (List.mem_cons_self _ _)
    simp only [List.foldl_cons, hj, if_false]
    exact ih fun x hx => h x (List.mem_cons_of_mem _ hx)

/-- C21: for every queue and clock, `ProcessAll` returns exactly one result per job that was
Pending before the call, in queue order and carrying that job's ID, with `Success` false exactly
when the job's payload contains the key `fail`; afterwards `PendingCount()` is 0, each job that
was Pending is Failed or Completed accordingly, with only its status and `CompletedAt` changed,
and the jobs that were not Pending are unchanged. -/
theorem C21_process_all (p : Processor) (clk : Nat → Time) :
    (ProcessAll p clk).1.map (fun r => (r.JobID, r.Success)) =
        (p.queue.filter fun j => decide (j.Status = Pending)).map
          (fun j => (j.ID, !(j.Payload.any fun kv => decide (kv.1 = "fail")))) ∧
      (ProcessAll p clk).1.length =
        (p.queue.filter fun j => decide (j.Status = Pending)).length ∧
      PendingCount (ProcessAll p clk).2 = 0 ∧
      List.Forall₂
        (fun (before after : Job) =>
          (before.Status = Pending →
            ∃ done, after =
              { before with
                Status := if (before.Payload.any fun kv => decide (kv.1 = "fail")) then Failed
                  else Completed
                CompletedAt := done }) ∧
          (before.Status ≠ Pending → after = before))
        p.queue (ProcessAll p clk).2.queue ∧
      (ProcessAll p clk).2.concurrency = p.concurrency := by
  have h1 := processLoop_results clk p.queue 0
  refine ⟨h1, ?_, ?_, processLoop_jobs clk p.queue 0, rfl⟩
  · have := congrArg List.length h1
    simpa [ProcessAll] using this
  · exact PendingCount_eq_zero _ (processLoop_no_pending clk p.queue 0)

/-- C21 at a concrete queue: a processor that has already processed `job-1` and then received the
failing `job-2` and a third job; `ProcessAll` returns a failure for `job-2` and a success for the
third, and leaves `job-1` as it was. -/
theorem C21_process_all_witness :
    ((ProcessAll queueOfThree tickingClock).1.map (fun r => (r.JobID, r.Success)) =
        (queueOfThree.queue.filter fun j => decide (j.Status = Pending)).map
          (fun j => (j.ID, !(j.Payload.any fun kv => decide (kv.1 = "fail")))) ∧
      (ProcessAll queueOfThree tickingClock).1.length =
        (queueOfThree.queue.filter fun j => decide (j.Status = Pending)).length ∧
      PendingCount (ProcessAll queueOfThree tickingClock).2 = 0 ∧
      List.Forall₂
        (fun (before after : Job) =>
          (before.Status = Pending →
            ∃ done, after =
              { before with
                Status := if (before.Payload.any fun kv => decide (kv.1 = "fail")) then Failed
                  else Completed
                CompletedAt := done }) ∧
          (before.Status ≠ Pending → after = before))
        queueOfThree.queue (ProcessAll queueOfThree tickingClock).2.queue ∧
      (ProcessAll queueOfThree tickingClock).2.concurrency = queueOfThree.concurrency) ∧
      queueOfThree.queue.map (fun j => (j.ID, j.Status)) =
        [("job-1", Completed), ("job-2", Pending), ("job-3", Pending)] ∧
      (ProcessAll queueOfThree tickingClock).1.map (fun r => (r.JobID, r.Success)) =
        [("job-2", false), ("job-3", true)] ∧
      (ProcessAll queueOfThree tickingClock).2.queue.map (fun j => (j.ID, j.Status)) =
        [("job-1", Completed), ("job-2", Failed), ("job-3", Completed)] ∧
      PendingCount queueOfThree = 2 :=
  ⟨C21_process_all queueOfThree tickingClock, by decide, by decide, by decide, by decide⟩

end processor
